import Mathlib

/-!
# frames: the Arrow/Plasma C bridge (`src/arrow/arrow.cc`)

A shallow embedding of the C bridge between Go and the Arrow C++ library, and of its
Plasma store client.  Handles (`void *`) are `Option`s: `none` is the null pointer.
Machine integers (`long long`, `int64_t`) are `Int`; the only arithmetic the bridge does on
them is the subtraction of a chunk length from a larger offset, which cannot overflow.
An error pointer `err` is `none` when it is null; when it is not, it is given by what it
points at (`cstr_t`): a live string, or a temporary that is gone when the bridge returns.
A string literal in the place of such a pointer stands for its live text.

The Arrow library and the Plasma store are outside the repository.  What the bridge reads
from an Arrow object (a type id, a length, the chunk list, a value) is a field of the model
of that object; what it asks the library to compute (slicing, the stream codec, the store
calls) is a parameter of the embedded function.
-/

namespace Frames

/-! ## Data model -/

/-- Type id `arrow::Type::BOOL` of the Arrow library's type enumeration. -/
def BOOL_DTYPE : Int := 1

/-- Type id `arrow::Type::DOUBLE` of the Arrow library's type enumeration. -/
def FLOAT64_DTYPE : Int := 12

/-- Type id `arrow::Type::INT64` of the Arrow library's type enumeration. -/
def INTEGER64_DTYPE : Int := 9

/-- Type id `arrow::Type::STRING` of the Arrow library's type enumeration. -/
def STRING_DTYPE : Int := 13

/-- Type id `arrow::Type::TIMESTAMP` of the Arrow library's type enumeration. -/
def TIMESTAMP_DTYPE : Int := 18

/-- An `arrow::Field`: a name and the type id of its data type. -/
structure Field where
  name : String
  dtype : Int
  deriving DecidableEq, Repr

/-- An `arrow::Array` (one chunk): an immutable typed buffer of values.  A `double` is kept
as its IEEE bit pattern, since the bridge only moves it around.  Null markers are left out:
`Value` and `GetString` do not look at them. -/
inductive ArrayData where
  | boolean (values : List Bool)
  | float64 (values : List Nat)
  | int64 (values : List Int)
  | utf8 (values : List String)
  | timestamp (values : List Int)
  deriving DecidableEq, Repr

/-- The method `arrow::Array::length()`. -/
def ArrayData.length : ArrayData → Int
  | .boolean vs => vs.length
  | .float64 vs => vs.length
  | .int64 vs => vs.length
  | .utf8 vs => vs.length
  | .timestamp vs => vs.length

/-- The method `arrow::Array::type_id()`. -/
def ArrayData.type_id : ArrayData → Int
  | .boolean _ => BOOL_DTYPE
  | .float64 _ => FLOAT64_DTYPE
  | .int64 _ => INTEGER64_DTYPE
  | .utf8 _ => STRING_DTYPE
  | .timestamp _ => TIMESTAMP_DTYPE

/-- Sum of the lengths of a list of chunks. -/
def chunks_length : List ArrayData → Int
  | [] => 0
  | chunk :: rest => chunk.length + chunks_length rest

/-- An `arrow::Column`: a field and a chunked array.  `length` is the stored length of the
chunked array (`column->ptr->length()`), which the library sets to the sum of the chunk
lengths (`chunks_length`). -/
structure Column where
  field : Field
  chunks : List ArrayData
  length : Int
  deriving DecidableEq, Repr

/-- The type id `column->ptr->type()->id()`: the type of the column is the type of its field. -/
def Column.type_id (column : Column) : Int := column.field.dtype

/-- An `arrow::Table`: a schema (the ordered fields), the columns and the row count. -/
structure Table where
  schema : List Field
  columns : List Column
  num_rows : Int
  deriving DecidableEq, Repr

/-- What a non-null `ptr` of a result points to: a column, a table, or an array builder,
which is given by the values appended to it so far. -/
inductive object_t where
  | column (c : Column)
  | table (t : Table)
  | builder (values : ArrayData)
  deriving DecidableEq, Repr

/-- The anonymous union of `result_t` (`arrow.h`): one machine word read as `ptr`, `cp`, `i`
or `f`.  `null` is the all-zero word that `new_result` stores (`ptr = cp = nullptr`). -/
inductive payload_t where
  | null
  | ptr (o : object_t)
  | cp (s : String)
  | i (v : Int)
  | f (bits : Nat)
  deriving DecidableEq, Repr

/-- What a non-null `const char *` points at when the caller reads it: `text s` is the live
string `s` (a string literal, or a copy made by `strdup`); `dangling` is the buffer of a
`std::string` temporary that was destroyed before the bridge returned, as in
`return new_result(status.message().c_str())` and `res.err = oss.str().c_str()`, so that
there is no text to read there. -/
inductive cstr_t where
  | text (s : String)
  | dangling
  deriving DecidableEq, Repr

/-- A string literal of the bridge, written where a `const char *` is expected, is the live
text `cstr_t.text`. -/
instance : Coe String cstr_t := ⟨cstr_t.text⟩

/-- The C string at `s.c_str()`, which is what `strdup` copies: the bytes of `s` before its
first NUL byte. -/
def c_str (s : String) : String :=
  String.mk (s.data.takeWhile (fun c => c ≠ Char.ofNat 0))

/-- The struct `result_t` of `arrow.h`: an error pointer (null when there is no error) and
the union. -/
structure result_t where
  err : Option cstr_t
  val : payload_t
  deriving DecidableEq, Repr

/-- The function `new_result` of `arrow.cc`. -/
def new_result (error : Option cstr_t) : result_t :=
  { err := error, val := payload_t.null }

/-- The macro `RETURN_IF_ERROR` of `arrow.cc` on a failed status:
`return new_result(status.message().c_str())`.  The string that `message()` returns is gone
when the caller gets the result, whatever the message was. -/
def RETURN_IF_ERROR (_msg : String) : result_t :=
  new_result (some cstr_t.dangling)

/-- The struct `chunk_t` of `arrow.cc`. -/
structure chunk_t where
  chunk : Option ArrayData
  offset : Int
  error : Option cstr_t
  deriving DecidableEq, Repr

/-! ## Column: random access -/

/-- The `for` loop of `find_chunk`, over the chunks from position `c` on: the position of
the chunk at which the loop returns (`none` when the chunks are exhausted) and the value of
`ct.offset` at that moment. -/
def find_chunk_loop : List ArrayData → Nat → Int → Option Nat × Int
  | [], _, offset => (none, offset)
  | chunk :: rest, c, offset =>
    if offset < chunk.length then (some c, offset)
    else find_chunk_loop rest (c + 1) (offset - chunk.length)

/-- The function `find_chunk` of `arrow.cc`. -/
def find_chunk (vp : Option Column) (i : Int) (typ : Int) : chunk_t :=
  match vp with
  | none => { chunk := none, offset := 0, error := some "null pointer" }
  | some column =>
    if column.type_id ≠ typ then
      { chunk := none, offset := 0, error := some "wrong type" }
    else if i < 0 ∨ i ≥ column.length then
      { chunk := none, offset := 0, error := some "index out of range" }
    else
      match find_chunk_loop column.chunks 0 i with
      | (some c, offset) => { chunk := column.chunks[c]?, offset := offset, error := none }
      | (none, offset) => { chunk := none, offset := offset, error := some "can't get here" }

/-- The read `((arrow::BooleanArray *)chunk)->Value(k)`.  On a null chunk, a chunk of another
type or an index outside the chunk the C++ read is undefined; the model gives `false`. -/
def BooleanArray_Value (chunk : Option ArrayData) (k : Int) : Bool :=
  match chunk with
  | some (.boolean vs) => if k < 0 then false else vs.getD k.toNat false
  | _ => false

/-- The read `((arrow::Int64Array *)chunk)->Value(k)`; `0` where the C++ read is undefined. -/
def Int64Array_Value (chunk : Option ArrayData) (k : Int) : Int :=
  match chunk with
  | some (.int64 vs) => if k < 0 then 0 else vs.getD k.toNat 0
  | _ => 0

/-- The read `((arrow::DoubleArray *)chunk)->Value(k)`; `0` where the C++ read is undefined. -/
def DoubleArray_Value (chunk : Option ArrayData) (k : Int) : Nat :=
  match chunk with
  | some (.float64 vs) => if k < 0 then 0 else vs.getD k.toNat 0
  | _ => 0

/-- The read `((arrow::StringArray *)chunk)->GetString(k)`; the empty string where the C++
read is undefined. -/
def StringArray_GetString (chunk : Option ArrayData) (k : Int) : String :=
  match chunk with
  | some (.utf8 vs) => if k < 0 then "" else vs.getD k.toNat ""
  | _ => ""

/-- The read `((arrow::TimestampArray *)chunk)->Value(k)`; `0` where the C++ read is
undefined. -/
def TimestampArray_Value (chunk : Option ArrayData) (k : Int) : Int :=
  match chunk with
  | some (.timestamp vs) => if k < 0 then 0 else vs.getD k.toNat 0
  | _ => 0

/-- The function `column_bool_at` of `arrow.cc`; the `bool` is widened to `res.i`. -/
def column_bool_at (vp : Option Column) (i : Int) : result_t :=
  let res := new_result none
  let cr := find_chunk vp i BOOL_DTYPE
  if cr.error ≠ none then { res with err := cr.error }
  else { res with val := payload_t.i (if BooleanArray_Value cr.chunk cr.offset then 1 else 0) }

/-- The function `column_int_at` of `arrow.cc`. -/
def column_int_at (vp : Option Column) (i : Int) : result_t :=
  let res := new_result none
  let cr := find_chunk vp i INTEGER64_DTYPE
  if cr.error ≠ none then { res with err := cr.error }
  else { res with val := payload_t.i (Int64Array_Value cr.chunk cr.offset) }

/-- The function `column_float_at` of `arrow.cc`. -/
def column_float_at (vp : Option Column) (i : Int) : result_t :=
  let res := new_result none
  let cr := find_chunk vp i FLOAT64_DTYPE
  if cr.error ≠ none then { res with err := cr.error }
  else { res with val := payload_t.f (DoubleArray_Value cr.chunk cr.offset) }

/-- The function `column_string_at` of `arrow.cc`; `res.cp` is `strdup(str.c_str())`, a fresh
copy of the string up to its first NUL byte. -/
def column_string_at (vp : Option Column) (i : Int) : result_t :=
  let res := new_result none
  let cr := find_chunk vp i STRING_DTYPE
  if cr.error ≠ none then { res with err := cr.error }
  else { res with val := payload_t.cp (c_str (StringArray_GetString cr.chunk cr.offset)) }

/-- The function `column_timestamp_at` of `arrow.cc`. -/
def column_timestamp_at (vp : Option Column) (i : Int) : result_t :=
  let res := new_result none
  let cr := find_chunk vp i TIMESTAMP_DTYPE
  if cr.error ≠ none then { res with err := cr.error }
  else { res with val := payload_t.i (TimestampArray_Value cr.chunk cr.offset) }

/-! ## Column and table: slicing -/

/-- The function `column_slice` of `arrow.cc`.  `Slice` is the library call
`column->ptr->Slice(offset, length)`, whose result is a shared pointer that may be null. -/
def column_slice (Slice : Column → Int → Int → Option Column)
    (vp : Option Column) (offset length : Int) : result_t :=
  let res := new_result none
  match vp with
  | none => { res with err := some "null pointer" }
  | some column =>
    match Slice column offset length with
    | none => { res with err := some "can't slice" }
    | some ptr => { res with val := payload_t.ptr (object_t.column ptr) }

/-- The function `table_slice` of `arrow.cc`.  `Slice` is the library call
`table->ptr->Slice(offset, length)`, whose result is a shared pointer that may be null. -/
def table_slice (Slice : Table → Int → Int → Option Table)
    (vp : Option Table) (offset length : Int) : result_t :=
  let res := new_result none
  match vp with
  | none => { res with err := some "null pointer" }
  | some table =>
    match Slice table offset length with
    | none => { res with err := some "can't slice" }
    | some ptr => { res with val := payload_t.ptr (object_t.table ptr) }

/-- Library behaviour, `arrow::Array::Slice`: the view of at most `length` values from
`offset` on; the length is cut down to what the array has left after `offset`. -/
def ArrayData.Slice (chunk : ArrayData) (offset length : Int) : ArrayData :=
  match chunk with
  | .boolean vs => .boolean ((vs.drop offset.toNat).take length.toNat)
  | .float64 vs => .float64 ((vs.drop offset.toNat).take length.toNat)
  | .int64 vs => .int64 ((vs.drop offset.toNat).take length.toNat)
  | .utf8 vs => .utf8 ((vs.drop offset.toNat).take length.toNat)
  | .timestamp vs => .timestamp ((vs.drop offset.toNat).take length.toNat)

/-- Library behaviour, first loop of `arrow::ChunkedArray::Slice`: skip the chunks that lie
wholly before `offset`. -/
def ChunkedArray_Slice_skip : List ArrayData → Int → List ArrayData × Int
  | [], offset => ([], offset)
  | chunk :: rest, offset =>
    if offset ≥ chunk.length then ChunkedArray_Slice_skip rest (offset - chunk.length)
    else (chunk :: rest, offset)

/-- Library behaviour, second loop of `arrow::ChunkedArray::Slice`: slice the following
chunks while some of `length` is left. -/
def ChunkedArray_Slice_take : List ArrayData → Int → Int → List ArrayData
  | [], _, _ => []
  | chunk :: rest, offset, length =>
    if length > 0 then
      chunk.Slice offset length ::
        ChunkedArray_Slice_take rest 0 (length - (chunk.length - offset))
    else []

/-- Library behaviour, `arrow::ChunkedArray::Slice`. -/
def ChunkedArray_Slice (chunks : List ArrayData) (offset length : Int) : List ArrayData :=
  let r := ChunkedArray_Slice_skip chunks offset
  ChunkedArray_Slice_take r.1 r.2 length

/-- Library behaviour, `arrow::Column::Slice`, an instance of the `Slice` parameter of
`column_slice`: a new column over the sliced chunks.  It never returns a null pointer and
makes no bounds check; a range that runs past the end is cut at the end. -/
def Column_Slice (column : Column) (offset length : Int) : Option Column :=
  let chunks := ChunkedArray_Slice column.chunks offset length
  some { field := column.field, chunks := chunks, length := chunks_length chunks }

/-- Library behaviour, the row count `arrow::Table::Slice` gives the new table: `length`
when there is no column, else the length of the last sliced column. -/
def Table_Slice_num_rows : List Column → Int → Int
  | [], length => length
  | column :: rest, _ => Table_Slice_num_rows rest column.length

/-- Library behaviour, `arrow::Table::Slice`, an instance of the `Slice` parameter of
`table_slice`: every column is sliced with `arrow::Column::Slice`. -/
def Table_Slice (table : Table) (offset length : Int) : Option Table :=
  let sliced := table.columns.map (fun column =>
    let chunks := ChunkedArray_Slice column.chunks offset length
    ({ field := column.field, chunks := chunks, length := chunks_length chunks } : Column))
  some { schema := table.schema, columns := sliced,
         num_rows := Table_Slice_num_rows sliced length }

/-! ## Array builder and table -/

/-- The function `array_builder_new` of `arrow.cc`.  The `switch` over the five type ids, whose
labels the compiler requires to be distinct, is the chain of tests; a new builder holds no
value.  In the default branch `res.err = oss.str().c_str()` is taken from a temporary: the
text "unknown dtype: " and the code are gone when the function returns. -/
def array_builder_new (dtype : Int) : result_t :=
  let res := new_result none
  if dtype = BOOL_DTYPE then
    { res with val := payload_t.ptr (object_t.builder (ArrayData.boolean [])) }
  else if dtype = FLOAT64_DTYPE then
    { res with val := payload_t.ptr (object_t.builder (ArrayData.float64 [])) }
  else if dtype = INTEGER64_DTYPE then
    { res with val := payload_t.ptr (object_t.builder (ArrayData.int64 [])) }
  else if dtype = STRING_DTYPE then
    { res with val := payload_t.ptr (object_t.builder (ArrayData.utf8 [])) }
  else if dtype = TIMESTAMP_DTYPE then
    { res with val := payload_t.ptr (object_t.builder (ArrayData.timestamp [])) }
  else
    { res with err := some cstr_t.dangling }

/-- The function `table_new` of `arrow.cc`.  `Make` is the library call
`arrow::Table::Make(schema, *columns)`, whose result is a shared pointer that may be null;
the two handles are used without a test for null. -/
def table_new (Make : List Field → List Column → Option Table)
    (sp : List Field) (cp : List Column) : Option Table :=
  match Make sp cp with
  | none => none
  | some ptr => some ptr

/-- Library behaviour, `arrow::Table::Make` without a row count, an instance of the `Make`
parameter of `table_new`: the table over the schema and the columns as they are given, its
row count the length of the first column (0 without columns).  It validates nothing and
never returns a null pointer. -/
def Table_Make (schema : List Field) (columns : List Column) : Option Table :=
  some { schema := schema, columns := columns,
         num_rows := match columns with
           | [] => 0
           | column :: _ => column.length }

/-- The method `arrow::Table::num_columns()`: the number of fields of the schema. -/
def Table.num_columns (table : Table) : Int := table.schema.length

/-- The function `table_col_by_name` of `arrow.cc`.  `GetColumnByName` is the library call
`table->ptr->GetColumnByName(name)`, whose result is a shared pointer that may be null. -/
def table_col_by_name (GetColumnByName : Table → String → Option Column)
    (vp : Option Table) (name : String) : result_t :=
  match vp with
  | none => { err := some "null pointer", val := payload_t.null }
  | some table =>
    match GetColumnByName table name with
    | none => { err := some "not found", val := payload_t.null }
    | some ptr => { err := none, val := payload_t.ptr (object_t.column ptr) }

/-- The function `table_col_by_index` of `arrow.cc`.  The range error is
`result_t{oss.str().c_str(), nullptr}`, taken from a temporary: its text ("column index ",
the index and the range) is gone when the function returns.  `table->ptr->column(i)` is the
`i`-th of the columns; on a table with fewer columns than fields the C++ read may be
undefined, and the model gives a null payload there. -/
def table_col_by_index (vp : Option Table) (i : Int) : result_t :=
  match vp with
  | none => { err := some "null pointer", val := payload_t.null }
  | some table =>
    let ncols := table.num_columns
    if i < 0 ∨ i ≥ ncols then
      { err := some cstr_t.dangling, val := payload_t.null }
    else
      match table.columns[i.toNat]? with
      | some column => { err := none, val := payload_t.ptr (object_t.column column) }
      | none => { err := none, val := payload_t.null }

/-! ## Store client: the stream codec and the object store, as the bridge sees them -/

/-- The class `arrow::Status`: OK, or an error with its message. -/
inductive Status where
  | OK
  | error (msg : String)
  deriving DecidableEq, Repr

/-- The two sinks a stream writer is opened on: `arrow::io::MockOutputStream` (counts the
bytes) and `arrow::io::FixedSizeBufferWriter` (writes into the buffer of the store). -/
inductive sink_t where
  | mock
  | buffer
  deriving DecidableEq, Repr

/-- The calls the bridge makes into the stream codec and into the store client, in the
order it makes them. -/
inductive event_t where
  | writer_open (sink : sink_t)
  | write_record_batch (sink : sink_t)
  | writer_close (sink : sink_t)
  | create (id : String) (size : Int)
  | seal (id : String)
  | get (id : String) (timeout_ms : Int)
  | reader_open
  | from_record_batches
  deriving DecidableEq, Repr

/-- The stream codec of the Arrow library, with writer state `W` and record batches `B`.
A writer call gives the new writer state and the bytes it sends to its sink, or the message
of its failed status (what a failed call has sent before it failed is left out); the writer
is opened on a sink and may behave according to it.
* `batches`: the results of the successive `TableBatchReader::ReadNext` calls on a table,
  up to the null batch that ends them;
* `Open`, `WriteRecordBatch`, `Close`: `arrow::ipc::RecordBatchStreamWriter`;
* `ReaderOpen`: `arrow::ipc::RecordBatchStreamReader::Open` on a buffer, giving the results
  of the successive `ReadNext` calls of the reader, up to the null batch that ends them;
* `FromRecordBatches`: `arrow::Table::FromRecordBatches`. -/
structure ipc_t (W B : Type) where
  batches : Table → List (Except String B)
  Open : sink_t → List Field → Except String (W × List Nat)
  WriteRecordBatch : W → B → Except String (W × List Nat)
  Close : W → Except String (W × List Nat)
  ReaderOpen : List Nat → Except String (List (Except String B))
  FromRecordBatches : List B → Except String Table

/-- The Plasma store client (`plasma::PlasmaClient`) with state `σ`: `Create` (the buffer it
hands out belongs to the new state), `Seal`, and `Get` for one identifier, which fills the
vector of object buffers. -/
structure plasma_t (σ : Type) where
  Create : σ → String → Int → Status × σ
  Seal : σ → String → Status × σ
  Get : σ → String → Int → Status × List (List Nat) × σ

/-- The method `MockOutputStream::Write`: only the extent grows. -/
def MockOutputStream_Write (extent : Int) (bytes : List Nat) : Int :=
  extent + bytes.length

/-- The method `FixedSizeBufferWriter::Write`, on the bytes written so far. -/
def FixedSizeBufferWriter_Write (data : List Nat) (bytes : List Nat) : List Nat :=
  data ++ bytes

/-- The function `write_table` of `arrow.cc`, on the results of the table's batch reader, the
writer and its sink (of state `S`): the status, the sink and the calls made. -/
def write_table {W B S : Type} (ipc : ipc_t W B) (sink : sink_t) (Write : S → List Nat → S) :
    List (Except String B) → W → S → Status × W × S × List event_t
  | [], w, s => (Status.OK, w, s, [])
  | Except.error msg :: _, w, s => (Status.error msg, w, s, [])
  | Except.ok batch :: rest, w, s =>
    match ipc.WriteRecordBatch w batch with
    | Except.error msg => (Status.error msg, w, s, [event_t.write_record_batch sink])
    | Except.ok (w1, bytes) =>
      let r := write_table ipc sink Write rest w1 (Write s bytes)
      (r.1, r.2.1, r.2.2.1, event_t.write_record_batch sink :: r.2.2.2)

/-- The function `table_size` of `arrow.cc`: the result and the calls made.  The byte count
travels in the union (`(void *)num_written`); a failed status leaves through
`RETURN_IF_ERROR`. -/
def table_size {W B : Type} (ipc : ipc_t W B) (table : Table) : result_t × List event_t :=
  match ipc.Open sink_t.mock table.schema with
  | Except.error msg => (RETURN_IF_ERROR msg, [event_t.writer_open sink_t.mock])
  | Except.ok (w, bytes) =>
    match write_table ipc sink_t.mock MockOutputStream_Write (ipc.batches table) w
        (MockOutputStream_Write 0 bytes) with
    | (Status.error msg, _, _, tr) =>
      (RETURN_IF_ERROR msg, event_t.writer_open sink_t.mock :: tr)
    | (Status.OK, w1, stream, tr) =>
      match ipc.Close w1 with
      | Except.error msg =>
        (RETURN_IF_ERROR msg,
          event_t.writer_open sink_t.mock :: tr ++ [event_t.writer_close sink_t.mock])
      | Except.ok (_, last) =>
        ({ err := none, val := payload_t.i (MockOutputStream_Write stream last) },
          event_t.writer_open sink_t.mock :: tr ++ [event_t.writer_close sink_t.mock])

/-- The accessor `result_i` of `arrow.cc`, also the cast `int64_t(res.ptr)`: the union read
as an integer.  The address of an object or of a string is not modelled (`0`). -/
def result_i (r : result_t) : Int :=
  match r.val with
  | payload_t.i v => v
  | _ => 0

/-- What a call of `plasma_write` or `plasma_read` leaves behind: the result, the client
state, the bytes written into the buffer that was created, and the calls made. -/
structure outcome_t (σ : Type) where
  res : result_t
  client : Option σ
  written : List Nat
  trace : List event_t

/-- The function `plasma_write` of `arrow.cc`.  `ObjectID::from_binary` keeps the bytes of
`oid`, so the identifier is `oid` itself. -/
def plasma_write {σ W B : Type} (store : plasma_t σ) (ipc : ipc_t W B)
    (cp : Option σ) (tp : Option Table) (oid : Option String) : outcome_t σ :=
  match cp, tp, oid with
  | some client, some table, some id =>
    let probe := table_size ipc table
    if probe.1.err ≠ none then
      { res := probe.1, client := some client, written := [], trace := probe.2 }
    else
      let size := result_i probe.1
      match store.Create client id size with
      | (Status.error msg, c1) =>
        { res := RETURN_IF_ERROR msg, client := some c1, written := [],
          trace := probe.2 ++ [event_t.create id size] }
      | (Status.OK, c1) =>
        match ipc.Open sink_t.buffer table.schema with
        | Except.error msg =>
          { res := RETURN_IF_ERROR msg, client := some c1, written := [],
            trace := probe.2 ++ [event_t.create id size, event_t.writer_open sink_t.buffer] }
        | Except.ok (w, bytes) =>
          match write_table ipc sink_t.buffer FixedSizeBufferWriter_Write (ipc.batches table) w
              (FixedSizeBufferWriter_Write [] bytes) with
          | (Status.error msg, _, data, tr) =>
            { res := RETURN_IF_ERROR msg, client := some c1, written := data,
              trace := probe.2 ++
                [event_t.create id size, event_t.writer_open sink_t.buffer] ++ tr }
          | (Status.OK, _, data, tr) =>
            match store.Seal c1 id with
            | (Status.error msg, c2) =>
              { res := RETURN_IF_ERROR msg, client := some c2, written := data,
                trace := probe.2 ++
                  [event_t.create id size, event_t.writer_open sink_t.buffer] ++ tr ++
                  [event_t.seal id] }
            | (Status.OK, c2) =>
              { res := { err := none, val := payload_t.i size }, client := some c2,
                written := data,
                trace := probe.2 ++
                  [event_t.create id size, event_t.writer_open sink_t.buffer] ++ tr ++
                  [event_t.seal id] }
  | _, _, _ =>
    { res := { err := some "null pointer", val := payload_t.null }, client := cp,
      written := [], trace := [] }

/-- The `while` loop of `plasma_read` over the results of the reader's `ReadNext` calls:
the batches read, or the message of the first failed status. -/
def read_batches {B : Type} : List (Except String B) → Except String (List B)
  | [] => Except.ok []
  | Except.error msg :: _ => Except.error msg
  | Except.ok batch :: rest =>
    match read_batches rest with
    | Except.error msg => Except.error msg
    | Except.ok batches => Except.ok (batch :: batches)

/-- The function `plasma_read` of `arrow.cc`.  The error for a number of buffers other than
one is `result_t{oss.str().c_str(), nullptr}`, taken from a temporary: its text ("more than
one buffer for " and the identifier) is gone when the function returns. -/
def plasma_read {σ W B : Type} (store : plasma_t σ) (ipc : ipc_t W B)
    (cp : Option σ) (oid : Option String) (timeout_ms : Int) : outcome_t σ :=
  match cp, oid with
  | some client, some id =>
    match store.Get client id timeout_ms with
    | (Status.error msg, _, c1) =>
      { res := RETURN_IF_ERROR msg, client := some c1, written := [],
        trace := [event_t.get id timeout_ms] }
    | (Status.OK, buffers, c1) =>
      if buffers.length ≠ 1 then
        { res := { err := some cstr_t.dangling, val := payload_t.null },
          client := some c1, written := [], trace := [event_t.get id timeout_ms] }
      else
        match ipc.ReaderOpen (buffers.headD []) with
        | Except.error msg =>
          { res := RETURN_IF_ERROR msg, client := some c1, written := [],
            trace := [event_t.get id timeout_ms, event_t.reader_open] }
        | Except.ok reads =>
          match read_batches reads with
          | Except.error msg =>
            { res := RETURN_IF_ERROR msg, client := some c1, written := [],
              trace := [event_t.get id timeout_ms, event_t.reader_open] }
          | Except.ok batches =>
            match ipc.FromRecordBatches batches with
            | Except.error msg =>
              { res := RETURN_IF_ERROR msg, client := some c1, written := [],
                trace := [event_t.get id timeout_ms, event_t.reader_open,
                  event_t.from_record_batches] }
            | Except.ok table =>
              { res := { err := none, val := payload_t.ptr (object_t.table table) },
                client := some c1, written := [],
                trace := [event_t.get id timeout_ms, event_t.reader_open,
                  event_t.from_record_batches] }
  | _, _ =>
    { res := { err := some "null pointer", val := payload_t.null }, client := cp,
      written := [], trace := [] }

/-! ## The sibling write path of `_misc/plasma.cc` -/

/-- The function `write_table` of `_misc/plasma.cc`: the loop of `write_table` of `arrow.cc`,
returning `false` where that one returns the failed status. -/
def misc_write_table {W B S : Type} (ipc : ipc_t W B) (sink : sink_t)
    (Write : S → List Nat → S) (batches : List (Except String B)) (w : W) (s : S) :
    Bool × W × S × List event_t :=
  let r := write_table ipc sink Write batches w s
  (decide (r.1 = Status.OK), r.2.1, r.2.2.1, r.2.2.2)

/-- The function `table_size` of `_misc/plasma.cc`: the byte count of the size-only sink after
`Open`, the batches and `Close`, or `-1`; and the calls made. -/
def misc_table_size {W B : Type} (ipc : ipc_t W B) (table : Table) : Int × List event_t :=
  match ipc.Open sink_t.mock table.schema with
  | Except.error _ => (-1, [event_t.writer_open sink_t.mock])
  | Except.ok (w, bytes) =>
    match misc_write_table ipc sink_t.mock MockOutputStream_Write (ipc.batches table) w
        (MockOutputStream_Write 0 bytes) with
    | (false, _, _, tr) => (-1, event_t.writer_open sink_t.mock :: tr)
    | (true, w1, stream, tr) =>
      match ipc.Close w1 with
      | Except.error _ =>
        (-1, event_t.writer_open sink_t.mock :: tr ++ [event_t.writer_close sink_t.mock])
      | Except.ok (_, last) =>
        (MockOutputStream_Write stream last,
          event_t.writer_open sink_t.mock :: tr ++ [event_t.writer_close sink_t.mock])

/-- The function `main` of `_misc/plasma.cc` from the size probe on (lines 103 to 141), for the
table and the identifier it has made: the exit status (`0` after "OK", `1` after
`std::exit(1)`), the bytes written into the buffer, and the calls made. -/
def misc_main_write {σ W B : Type} (store : plasma_t σ) (ipc : ipc_t W B) (client : σ)
    (table : Table) (oid : String) : Int × List Nat × List event_t :=
  let probe := misc_table_size ipc table
  let size := probe.1
  if size = -1 then (1, [], probe.2)
  else
    match store.Create client oid size with
    | (Status.error _, _) => (1, [], probe.2 ++ [event_t.create oid size])
    | (Status.OK, c1) =>
      match ipc.Open sink_t.buffer table.schema with
      | Except.error _ =>
        (1, [], probe.2 ++ [event_t.create oid size, event_t.writer_open sink_t.buffer])
      | Except.ok (w, bytes) =>
        match misc_write_table ipc sink_t.buffer FixedSizeBufferWriter_Write
            (ipc.batches table) w (FixedSizeBufferWriter_Write [] bytes) with
        | (false, _, data, tr) =>
          (1, data,
            probe.2 ++ [event_t.create oid size, event_t.writer_open sink_t.buffer] ++ tr)
        | (true, w1, data, tr) =>
          match ipc.Close w1 with
          | Except.error _ =>
            (1, data,
              probe.2 ++ [event_t.create oid size, event_t.writer_open sink_t.buffer] ++ tr ++
                [event_t.writer_close sink_t.buffer])
          | Except.ok (_, last) =>
            match store.Seal c1 oid with
            | (Status.error _, _) =>
              (1, FixedSizeBufferWriter_Write data last,
                probe.2 ++ [event_t.create oid size, event_t.writer_open sink_t.buffer] ++ tr ++
                  [event_t.writer_close sink_t.buffer, event_t.seal oid])
            | (Status.OK, _) =>
              (0, FixedSizeBufferWriter_Write data last,
                probe.2 ++ [event_t.create oid size, event_t.writer_open sink_t.buffer] ++ tr ++
                  [event_t.writer_close sink_t.buffer, event_t.seal oid])

/-- The lines 84 to 86 of `main` of `_misc/plasma.cc`, on the bytes of the key `argv[2]`
(`strlen` of them): the array `oid` holds twenty times the character `0`, which is the byte
48, and `memcpy` puts the key at its end.  For a key of more than 20 bytes the copy starts
before the array, which is undefined in C++: `none`. -/
def misc_main_oid (key : List Nat) : Option (List Nat) :=
  let olen := key.length
  let oid := List.replicate 20 48
  if olen ≤ 20 then
    some (oid.take (20 - olen) ++ key ++ oid.drop (20 - olen + olen))
  else none

/-! ## Specification-side notions for columns -/

/-- The elements of one chunk, each as a value of the union: a boolean widened to an
integer, a string whole. -/
def ArrayData.cells : ArrayData → List payload_t
  | .boolean vs => vs.map (fun b => payload_t.i (if b then 1 else 0))
  | .float64 vs => vs.map payload_t.f
  | .int64 vs => vs.map payload_t.i
  | .utf8 vs => vs.map payload_t.cp
  | .timestamp vs => vs.map payload_t.i

/-- A value of a column as its accessor hands it over: a string as the C string `c_str` (the
accessor returns `strdup(str.c_str())`), every other value as it is. -/
def payload_t.returned : payload_t → payload_t
  | .cp s => .cp (c_str s)
  | .null => .null
  | .ptr o => .ptr o
  | .i v => .i v
  | .f bits => .f bits

/-- The concatenation of the chunks of a column: its logical sequence of values. -/
def chunks_cells : List ArrayData → List payload_t
  | [] => []
  | chunk :: rest => chunk.cells ++ chunks_cells rest

/-- The five typed accessors of `arrow.cc`, each with the type id it passes to
`find_chunk`. -/
def typed_accessors : List ((Option Column → Int → result_t) × Int) :=
  [(column_bool_at, BOOL_DTYPE), (column_int_at, INTEGER64_DTYPE),
   (column_float_at, FLOAT64_DTYPE), (column_string_at, STRING_DTYPE),
   (column_timestamp_at, TIMESTAMP_DTYPE)]

/-- An int64 column of four chunks, of lengths 3, 0, 5 and 2, holding 0..9. -/
def chunked_column : Column :=
  { field := { name := "i", dtype := INTEGER64_DTYPE },
    chunks := [.int64 [0, 1, 2], .int64 [], .int64 [3, 4, 5, 6, 7], .int64 [8, 9]],
    length := 10 }

/-- A utf8 column whose one element is the three bytes `a`, NUL, `b`. -/
def nul_column : Column :=
  { field := { name := "s", dtype := STRING_DTYPE }, chunks := [.utf8 ["a\x00b"]],
    length := 1 }

/-- A utf8 column of two chunks; its second and third elements hold a NUL byte. -/
def string_column : Column :=
  { field := { name := "s", dtype := STRING_DTYPE },
    chunks := [.utf8 ["frames", "v3\x00io"], .utf8 ["\x00"]], length := 3 }

/-- A column whose stored length, 5, is larger than the sum of its chunk lengths, 2. -/
def overlong_column : Column :=
  { field := { name := "i", dtype := INTEGER64_DTYPE }, chunks := [.int64 [0, 1]],
    length := 5 }

/-! ## Specification-side notions for the write path -/

/-- Is the call a `Create` of the store client? -/
def event_t.is_create : event_t → Bool
  | event_t.create _ _ => true
  | _ => false

/-- The step of the write path a call belongs to: 0 for the size probe (the writer on the
size-only sink), 1 for `Create`, 2 for opening the writer on the buffer, 3 for writing a batch
into the buffer, 4 for `Seal`; 5 for a call that is no part of the write path. -/
def event_t.step : event_t → Nat
  | event_t.writer_open sink_t.mock => 0
  | event_t.write_record_batch sink_t.mock => 0
  | event_t.writer_close sink_t.mock => 0
  | event_t.create _ _ => 1
  | event_t.writer_open sink_t.buffer => 2
  | event_t.write_record_batch sink_t.buffer => 3
  | event_t.seal _ => 4
  | _ => 5

/-- In a run of the write path the call `a` may come before the call `b`: `a` belongs to an
earlier step, or both belong to the size probe, or both write a batch into the buffer. -/
def event_t.before (a b : event_t) : Prop :=
  a.step < b.step ∨ (a.step = b.step ∧ (a.step = 0 ∨ a.step = 3))

/-! ## Concrete inputs for the examples -/

/-- The table that `build_table` of `_misc/plasma.cc` makes: one int64 column `i` holding
0..9, in one chunk. -/
def build_table : Table :=
  { schema := [{ name := "i", dtype := INTEGER64_DTYPE }],
    columns := [{ field := { name := "i", dtype := INTEGER64_DTYPE },
                  chunks := [.int64 [0, 1, 2, 3, 4, 5, 6, 7, 8, 9]], length := 10 }],
    num_rows := 10 }

/-- A small stream codec for the examples.  Its writer sends eight bytes per field on `Open`
and eight bytes per value for a batch; on `Close` it sends, as the stream writer of the Arrow
library does, the four zero bytes that mark the end of the stream.  A table is read as one
batch.  Its reader side decodes nothing. -/
def marker_codec : ipc_t Unit Table :=
  { batches := fun table => [Except.ok table],
    Open := fun _ schema => Except.ok ((), List.replicate (8 * schema.length) 1),
    WriteRecordBatch := fun _ batch =>
      Except.ok ((), List.replicate (8 * batch.columns.length * batch.num_rows.toNat) 2),
    Close := fun _ => Except.ok ((), [0, 0, 0, 0]),
    ReaderOpen := fun _ => Except.error "not a stream",
    FromRecordBatches := fun _ => Except.error "no batches" }

/-- The codec `marker_codec` with a writer that cannot write a batch into the buffer of the
store, while the size-only sink takes everything. -/
def full_buffer_codec : ipc_t sink_t Table :=
  { batches := fun table => [Except.ok table],
    Open := fun sink schema => Except.ok (sink, List.replicate (8 * schema.length) 1),
    WriteRecordBatch := fun sink batch =>
      match sink with
      | sink_t.mock =>
        Except.ok (sink, List.replicate (8 * batch.columns.length * batch.num_rows.toNat) 2)
      | sink_t.buffer => Except.error "buffer is full",
    Close := fun sink => Except.ok (sink, [0, 0, 0, 0]),
    ReaderOpen := fun _ => Except.error "not a stream",
    FromRecordBatches := fun _ => Except.error "no batches" }

/-- A small store for the examples.  Its state lists the identifiers created so far; `Create`
refuses an identifier that exists, `Seal` one that does not, and `Get` gives one empty buffer
for an identifier that exists. -/
def list_store : plasma_t (List String) :=
  { Create := fun ids id _ =>
      if id ∈ ids then (Status.error "object already exists", ids) else (Status.OK, id :: ids),
    Seal := fun ids id =>
      if id ∈ ids then (Status.OK, ids) else (Status.error "object does not exist", ids),
    Get := fun ids id _ => (Status.OK, if id ∈ ids then [[]] else [], ids) }

/-- A store whose `Get` gives two buffers for one identifier. -/
def two_buffer_store : plasma_t Unit :=
  { Create := fun _ _ _ => (Status.OK, ()),
    Seal := fun _ _ => (Status.OK, ()),
    Get := fun _ _ _ => (Status.OK, [[1], [2]], ()) }

/-! ## Specification-side notions and inputs for the builder, the table and the identifier -/

/-- The five type ids `array_builder_new` knows, in the order of its `switch`. -/
def dtype_codes : List Int :=
  [BOOL_DTYPE, FLOAT64_DTYPE, INTEGER64_DTYPE, STRING_DTYPE, TIMESTAMP_DTYPE]

/-- A schema of one bool field `x` beside columns that do not fit it: the int64 column `i` of
ten rows and a second int64 column `j` of two rows. -/
def misfit_columns : List Column :=
  [chunked_column,
   { field := { name := "j", dtype := INTEGER64_DTYPE }, chunks := [.int64 [0, 1]],
     length := 2 }]

/-- The result protocol: a result that carries an error carries no payload (the union is the
all-zero word). -/
def result_t.error_xor_payload (r : result_t) : Prop :=
  r.err ≠ none → r.val = payload_t.null

/-- The key `obj1`, as bytes. -/
def obj1_key : List Nat := [111, 98, 106, 49]

/-! ## A codec with a reader and a store with memory, for the round trip -/

/-- An int64 value as one unit of the stream of `unit_codec`: the even numbers for the
values from 0 up, the odd ones for the negative values. -/
def zigzag (v : Int) : Nat :=
  if v ≥ 0 then (2 * v).toNat else (-2 * v - 1).toNat

/-- The int64 value of a unit: the inverse of `zigzag`. -/
def unzigzag (n : Nat) : Int :=
  if n % 2 = 0 then ((n / 2 : Nat) : Int) else -((n / 2 : Nat) : Int) - 1

/-- The int64 values of a chunk, as units; a chunk of another type gives none. -/
def unit_values : ArrayData → List Nat
  | .int64 vs => vs.map zigzag
  | _ => []

/-- The schema message of `unit_codec`: the number of fields, then for each field the length
of its name and the characters of the name. -/
def unit_schema (schema : List Field) : List Nat :=
  schema.length :: schema.flatMap (fun field =>
    field.name.data.length :: field.name.data.map Char.toNat)

/-- The reader of `unit_codec` on the fields of a schema message: `n` fields, each the length
of its name and the name, and the rest of the buffer. -/
def unit_read_fields : Nat → List Nat → Option (List Field × List Nat)
  | 0, rest => some ([], rest)
  | _ + 1, [] => none
  | n + 1, len :: rest =>
    if rest.length < len then none
    else
      match unit_read_fields n (rest.drop len) with
      | none => none
      | some (fields, tail) =>
        some ({ name := String.mk ((rest.take len).map Char.ofNat),
                dtype := INTEGER64_DTYPE } :: fields, tail)

/-- The batch of `nrows` rows that `unit_codec` reads from the units of its columns. -/
def unit_batch (fields : List Field) (nrows : Nat) (units : List Nat) : Table :=
  { schema := fields,
    columns := (List.range fields.length).zipWith (fun j field =>
      ({ field := field,
         chunks := [.int64 (((units.drop (j * nrows)).take nrows).map unzigzag)],
         length := nrows } : Column)) fields,
    num_rows := nrows }

/-- The reader of `unit_codec` on the messages after the schema: the results of its successive
`ReadNext` calls.  A message starts with the unit 1 and the number of rows; the unit 0 ends
the stream. -/
def unit_read_batches (fields : List Field) : Nat → List Nat → List (Except String Table)
  | 0, _ => [Except.error "unexpected end of stream"]
  | _ + 1, [] => [Except.error "unexpected end of stream"]
  | _ + 1, 0 :: _ => []
  | _ + 1, [1] => [Except.error "unexpected end of stream"]
  | fuel + 1, 1 :: nrows :: rest =>
    if rest.length < fields.length * nrows then [Except.error "unexpected end of stream"]
    else
      Except.ok (unit_batch fields nrows rest) ::
        unit_read_batches fields fuel (rest.drop (fields.length * nrows))
  | _ + 1, _ :: _ => [Except.error "invalid message"]

/-- The table `unit_codec` makes of the batches of a stream: the schema of the first batch,
and for each field the chunks of the batches, in order. -/
def unit_from_batches : List Table → Except String Table
  | [] => Except.error "must pass at least one record batch"
  | batch :: rest =>
    Except.ok
      { schema := batch.schema,
        columns := (List.range batch.schema.length).zipWith (fun j field =>
          ({ field := field,
             chunks := (batch :: rest).flatMap (fun b =>
               match b.columns[j]? with
               | some column => column.chunks
               | none => []),
             length := ((batch :: rest).map Table.num_rows).sum } : Column)) batch.schema,
        num_rows := ((batch :: rest).map Table.num_rows).sum }

/-- A small stream codec with a reader, for tables of int64 columns.  The stream is the
schema message, one message for each batch (the unit 1, the number of rows, the values column
by column) and, written by `Close`, the unit 0 that marks the end of the stream, as the
stream writer of the Arrow library writes an end-of-stream marker.  A table is read as one
batch. -/
def unit_codec : ipc_t Unit Table :=
  { batches := fun table => [Except.ok table],
    Open := fun _ schema =>
      if schema.all (fun field => field.dtype = INTEGER64_DTYPE) then
        Except.ok ((), unit_schema schema)
      else Except.error "unsupported type",
    WriteRecordBatch := fun _ batch =>
      Except.ok ((), 1 :: batch.num_rows.toNat ::
        batch.columns.flatMap (fun column => column.chunks.flatMap unit_values)),
    Close := fun _ => Except.ok ((), [0]),
    ReaderOpen := fun buffer =>
      match buffer with
      | [] => Except.error "invalid schema"
      | n :: rest =>
        match unit_read_fields n rest with
        | none => Except.error "invalid schema"
        | some (fields, tail) => Except.ok (unit_read_batches fields tail.length tail),
    FromRecordBatches := unit_from_batches }

/-- An object of `memory_store`: its identifier, the bytes of its buffer, and whether it is
sealed. -/
structure store_object where
  id : String
  data : List Nat
  sealed : Bool
  deriving DecidableEq, Repr

/-- A store that hands out memory it does not clear: the buffer of a new object holds the
byte `fill` everywhere.  `Create` refuses an identifier that exists, `Seal` marks the object,
and `Get` gives the buffers of the sealed objects with the identifier. -/
def memory_store (fill : Nat) : plasma_t (List store_object) :=
  { Create := fun objects id size =>
      if objects.any (fun o => o.id = id) then (Status.error "object already exists", objects)
      else
        (Status.OK,
          { id := id, data := List.replicate size.toNat fill, sealed := false } :: objects),
    Seal := fun objects id =>
      if objects.any (fun o => o.id = id) then
        (Status.OK, objects.map (fun o => if o.id = id then { o with sealed := true } else o))
      else (Status.error "object does not exist", objects),
    Get := fun objects id _ =>
      (Status.OK, (objects.filter (fun o => o.id = id ∧ o.sealed)).map store_object.data,
        objects) }

/-- The effect on the store of the bytes that the writer of `plasma_write` has put into the
buffer of the object: they replace the first bytes of the buffer, the rest stays as it was. -/
def memory_write (objects : List store_object) (id : String) (written : List Nat) :
    List store_object :=
  objects.map (fun o =>
    if o.id = id then { o with data := written ++ o.data.drop written.length } else o)

/-- The store after a run of `plasma_write`: the state the client calls left, with the bytes
written into the buffer. -/
def memory_after_write (out : outcome_t (List store_object)) (id : String) :
    Option (List store_object) :=
  out.client.map (fun objects => memory_write objects id out.written)

/-! ## Lemmas on the chunk walk -/

theorem ArrayData.length_nonneg (chunk : ArrayData) : 0 ≤ chunk.length := by
  cases chunk <;> simp [ArrayData.length]

theorem chunks_length_nonneg (chunks : List ArrayData) : 0 ≤ chunks_length chunks := by
  induction chunks with
  | nil => simp [chunks_length]
  | cons chunk rest ih =>
    have := chunk.length_nonneg
    simp only [chunks_length]; omega

theorem ArrayData.cells_length (chunk : ArrayData) : (chunk.cells.length : Int) = chunk.length := by
  cases chunk <;> simp [ArrayData.cells, ArrayData.length]

/-- The loop of `find_chunk` stops, at the chunk that covers the offset. -/
theorem find_chunk_loop_spec (chunks : List ArrayData) :
    ∀ (c : Nat) (offset : Int), 0 ≤ offset → offset < chunks_length chunks →
      ∃ p chunk, chunks[p]? = some chunk ∧
        find_chunk_loop chunks c offset
          = (some (c + p), offset - chunks_length (chunks.take p)) ∧
        0 ≤ offset - chunks_length (chunks.take p) ∧
        offset - chunks_length (chunks.take p) < chunk.length := by
  induction chunks with
  | nil => intro c offset h0 h1; simp [chunks_length] at h1; omega
  | cons chunk rest ih =>
    intro c offset h0 h1
    by_cases h : offset < chunk.length
    · refine ⟨0, chunk, by simp, ?_, ?_, ?_⟩ <;> simp [find_chunk_loop, h, chunks_length, h0]
    · simp only [chunks_length] at h1
      obtain ⟨p, ck, hp, hl, hlo, hhi⟩ := ih (c + 1) (offset - chunk.length) (by omega) (by omega)
      refine ⟨p + 1, ck, by simpa using hp, ?_, ?_, ?_⟩
      · simp only [find_chunk_loop, h, if_false, hl, List.take_succ_cons, chunks_length]
        rw [show c + 1 + p = c + (p + 1) by omega,
          show offset - chunk.length - chunks_length (List.take p rest)
            = offset - (chunk.length + chunks_length (List.take p rest)) by omega]
      · simp only [List.take_succ_cons, chunks_length]; omega
      · simp only [List.take_succ_cons, chunks_length]; omega

/-- The element of the concatenation at a global index is the element of the covering chunk
at the local offset. -/
theorem chunks_cells_getElem? (chunks : List ArrayData) :
    ∀ (p : Nat) (chunk : ArrayData) (k : Int), chunks[p]? = some chunk → 0 ≤ k →
      k < chunk.length →
      (chunks_cells chunks)[(chunks_length (chunks.take p) + k).toNat]? = chunk.cells[k.toNat]? := by
  induction chunks with
  | nil => intro p chunk k hp; simp at hp
  | cons hd rest ih =>
    intro p chunk k hp h0 h1
    cases p with
    | zero =>
      simp at hp; subst hp
      have hl := hd.cells_length
      simp only [List.take_zero, chunks_length, zero_add, chunks_cells]
      rw [List.getElem?_append_left (by omega)]
    | succ p =>
      simp at hp
      have hl := hd.cells_length
      have hn := chunks_length_nonneg (rest.take p)
      simp only [List.take_succ_cons, chunks_length, chunks_cells]
      rw [List.getElem?_append_right (by omega), ← ih p chunk k hp h0 h1]
      congr 1; omega

theorem BooleanArray_Value_cells (chunk : ArrayData) (k : Int)
    (ht : chunk.type_id = BOOL_DTYPE) (h0 : 0 ≤ k) (h1 : k < chunk.length) :
    chunk.cells[k.toNat]?
      = some (payload_t.i (if BooleanArray_Value (some chunk) k then 1 else 0)) := by
  cases chunk <;>
    simp [ArrayData.type_id, BOOL_DTYPE, FLOAT64_DTYPE, INTEGER64_DTYPE, STRING_DTYPE,
      TIMESTAMP_DTYPE] at ht
  rename_i vs
  simp only [ArrayData.length] at h1
  have hk : k.toNat < vs.length := by omega
  simp [ArrayData.cells, BooleanArray_Value, not_lt.mpr h0, List.getD_eq_getElem?_getD,
    List.getElem?_eq_getElem hk]

theorem Int64Array_Value_cells (chunk : ArrayData) (k : Int)
    (ht : chunk.type_id = INTEGER64_DTYPE) (h0 : 0 ≤ k) (h1 : k < chunk.length) :
    chunk.cells[k.toNat]? = some (payload_t.i (Int64Array_Value (some chunk) k)) := by
  cases chunk <;>
    simp [ArrayData.type_id, BOOL_DTYPE, FLOAT64_DTYPE, INTEGER64_DTYPE, STRING_DTYPE,
      TIMESTAMP_DTYPE] at ht
  rename_i vs
  simp only [ArrayData.length] at h1
  have hk : k.toNat < vs.length := by omega
  simp [ArrayData.cells, Int64Array_Value, not_lt.mpr h0, List.getD_eq_getElem?_getD,
    List.getElem?_eq_getElem hk]

theorem DoubleArray_Value_cells (chunk : ArrayData) (k : Int)
    (ht : chunk.type_id = FLOAT64_DTYPE) (h0 : 0 ≤ k) (h1 : k < chunk.length) :
    chunk.cells[k.toNat]? = some (payload_t.f (DoubleArray_Value (some chunk) k)) := by
  cases chunk <;>
    simp [ArrayData.type_id, BOOL_DTYPE, FLOAT64_DTYPE, INTEGER64_DTYPE, STRING_DTYPE,
      TIMESTAMP_DTYPE] at ht
  rename_i vs
  simp only [ArrayData.length] at h1
  have hk : k.toNat < vs.length := by omega
  simp [ArrayData.cells, DoubleArray_Value, not_lt.mpr h0, List.getD_eq_getElem?_getD,
    List.getElem?_eq_getElem hk]

theorem StringArray_GetString_cells (chunk : ArrayData) (k : Int)
    (ht : chunk.type_id = STRING_DTYPE) (h0 : 0 ≤ k) (h1 : k < chunk.length) :
    chunk.cells[k.toNat]? = some (payload_t.cp (StringArray_GetString (some chunk) k)) := by
  cases chunk <;>
    simp [ArrayData.type_id, BOOL_DTYPE, FLOAT64_DTYPE, INTEGER64_DTYPE, STRING_DTYPE,
      TIMESTAMP_DTYPE] at ht
  rename_i vs
  simp only [ArrayData.length] at h1
  have hk : k.toNat < vs.length := by omega
  simp [ArrayData.cells, StringArray_GetString, not_lt.mpr h0, List.getD_eq_getElem?_getD,
    List.getElem?_eq_getElem hk]

theorem TimestampArray_Value_cells (chunk : ArrayData) (k : Int)
    (ht : chunk.type_id = TIMESTAMP_DTYPE) (h0 : 0 ≤ k) (h1 : k < chunk.length) :
    chunk.cells[k.toNat]? = some (payload_t.i (TimestampArray_Value (some chunk) k)) := by
  cases chunk <;>
    simp [ArrayData.type_id, BOOL_DTYPE, FLOAT64_DTYPE, INTEGER64_DTYPE, STRING_DTYPE,
      TIMESTAMP_DTYPE] at ht
  rename_i vs
  simp only [ArrayData.length] at h1
  have hk : k.toNat < vs.length := by omega
  simp [ArrayData.cells, TimestampArray_Value, not_lt.mpr h0, List.getD_eq_getElem?_getD,
    List.getElem?_eq_getElem hk]

/-- On a column whose length is the sum of its chunk lengths, an in-range index and the
column's own type, `find_chunk` returns the covering chunk and the local offset, and no
error. -/
theorem find_chunk_in_range (column : Column) (i : Int)
    (hlen : column.length = chunks_length column.chunks)
    (h0 : 0 ≤ i) (h1 : i < column.length) :
    ∃ c chunk, column.chunks[c]? = some chunk ∧
      find_chunk (some column) i column.type_id
        = { chunk := some chunk, offset := i - chunks_length (column.chunks.take c),
            error := none } ∧
      0 ≤ i - chunks_length (column.chunks.take c) ∧
      i - chunks_length (column.chunks.take c) < chunk.length := by
  obtain ⟨p, chunk, hp, hl, hlo, hhi⟩ :=
    find_chunk_loop_spec column.chunks 0 i h0 (by rw [← hlen]; exact h1)
  refine ⟨p, chunk, hp, ?_, hlo, hhi⟩
  simp [find_chunk, not_lt.mpr h0, not_le.mpr h1, hl, hp]

/-- The element of a column at an in-range index, through the chunk and offset `find_chunk`
returns. -/
theorem find_chunk_cell (column : Column) (i : Int)
    (hlen : column.length = chunks_length column.chunks)
    (h0 : 0 ≤ i) (h1 : i < column.length) :
    ∃ chunk k, find_chunk (some column) i column.type_id
        = { chunk := some chunk, offset := k, error := none } ∧
      chunk ∈ column.chunks ∧ 0 ≤ k ∧ k < chunk.length ∧
      (chunks_cells column.chunks)[i.toNat]? = chunk.cells[k.toNat]? := by
  obtain ⟨c, chunk, hc, hf, hlo, hhi⟩ := find_chunk_in_range column i hlen h0 h1
  refine ⟨chunk, _, hf, List.getElem?_mem hc, hlo, hhi, ?_⟩
  rw [← chunks_cells_getElem? column.chunks c chunk _ hc hlo hhi]
  congr 2; omega

theorem chunked_column_types :
    ∀ chunk ∈ chunked_column.chunks, chunk.type_id = chunked_column.type_id := by
  intro chunk h
  simp [chunked_column] at h
  rcases h with rfl | rfl | rfl | rfl <;> rfl

theorem typed_accessor_err (a : (Option Column → Int → result_t) × Int)
    (ha : a ∈ typed_accessors) (vp : Option Column) (i : Int) :
    (a.1 vp i).err = (find_chunk vp i a.2).error ∧
      ((find_chunk vp i a.2).error ≠ none → (a.1 vp i).val = payload_t.null) := by
  simp only [typed_accessors, List.mem_cons, List.mem_singleton, List.not_mem_nil,
    or_false] at ha
  rcases ha with rfl | rfl | rfl | rfl | rfl <;>
    simp only [column_bool_at, column_float_at, column_int_at, column_string_at,
      column_timestamp_at, new_result] <;>
    split <;> simp_all

theorem typed_accessor_cell (a : (Option Column → Int → result_t) × Int)
    (ha : a ∈ typed_accessors) (vp : Option Column) (i : Int) (chunk : ArrayData) (k : Int)
    (hf : find_chunk vp i a.2 = { chunk := some chunk, offset := k, error := none })
    (ht : chunk.type_id = a.2) (h0 : 0 ≤ k) (h1 : k < chunk.length) :
    ∃ v, chunk.cells[k.toNat]? = some v ∧
      a.1 vp i = { err := none, val := v.returned } ∧
      (a.2 ≠ STRING_DTYPE → v.returned = v) := by
  simp only [typed_accessors, List.mem_cons, List.mem_singleton, List.not_mem_nil,
    or_false] at ha
  rcases ha with rfl | rfl | rfl | rfl | rfl
  · exact ⟨_, BooleanArray_Value_cells chunk k ht h0 h1,
      by simp [column_bool_at, hf, new_result, payload_t.returned], fun _ => rfl⟩
  · exact ⟨_, Int64Array_Value_cells chunk k ht h0 h1,
      by simp [column_int_at, hf, new_result, payload_t.returned], fun _ => rfl⟩
  · exact ⟨_, DoubleArray_Value_cells chunk k ht h0 h1,
      by simp [column_float_at, hf, new_result, payload_t.returned], fun _ => rfl⟩
  · exact ⟨_, StringArray_GetString_cells chunk k ht h0 h1,
      by simp [column_string_at, hf, new_result, payload_t.returned],
      fun h => absurd rfl h⟩
  · exact ⟨_, TimestampArray_Value_cells chunk k ht h0 h1,
      by simp [column_timestamp_at, hf, new_result, payload_t.returned], fun _ => rfl⟩

theorem find_chunk_error_cases (column : Column) (i : Int) (typ : Int) :
    (column.type_id ≠ typ → find_chunk (some column) i typ
        = { chunk := none, offset := 0, error := some "wrong type" }) ∧
    (column.type_id = typ → (i < 0 ∨ i ≥ column.length) → find_chunk (some column) i typ
        = { chunk := none, offset := 0, error := some "index out of range" }) ∧
    (column.type_id = typ → ¬ (i < 0 ∨ i ≥ column.length) →
        (find_chunk (some column) i typ).error = none ∨
        (find_chunk (some column) i typ).error = some "can't get here") := by
  refine ⟨fun h => by simp [find_chunk, h], fun h hr => by simp [find_chunk, h, hr], ?_⟩
  intro h hr
  simp only [find_chunk, h, ne_eq, not_true_eq_false, if_false, hr]
  split <;> simp

theorem typed_accessor_result (a : (Option Column → Int → result_t) × Int)
    (ha : a ∈ typed_accessors) (vp : Option Column) (i : Int) (msg : cstr_t)
    (h : (find_chunk vp i a.2).error = some msg) :
    a.1 vp i = { err := some msg, val := payload_t.null } := by
  obtain ⟨he, hv⟩ := typed_accessor_err a ha vp i
  have hv2 := hv (by rw [h]; simp)
  rw [h] at he
  cases hr : a.1 vp i with
  | mk e v => rw [hr] at he hv2; simp at he hv2; rw [he, hv2]

/-! ## Column: random access, the claims -/

/-- A string without a NUL byte is its own C string. -/
theorem c_str_eq_self (s : String) (h : Char.ofNat 0 ∉ s.data) : c_str s = s := by
  have hall : ∀ c ∈ s.data, decide (c ≠ Char.ofNat 0) = true := by
    intro c hc
    simp only [ne_eq, decide_not, Bool.not_eq_true', decide_eq_false_iff_not]
    intro h0
    exact h (h0 ▸ hc)
  unfold c_str
  rw [List.takeWhile_eq_self_iff.mpr hall]

/-- C1, as the claim states it, fails: on a utf8 column whose one element is the three bytes
`a`, NUL, `b`, with the index 0 in range and the chunk of the column's type, `find_chunk`
resolves the index but `column_string_at` returns the string "a", not the element. -/
theorem string_accessor_cuts_at_nul_counterexample :
    nul_column.length = chunks_length nul_column.chunks ∧
    (0 : Int) ≤ 0 ∧ (0 : Int) < nul_column.length ∧
    (∀ chunk ∈ nul_column.chunks, chunk.type_id = nul_column.type_id) ∧
    (column_string_at, STRING_DTYPE) ∈ typed_accessors ∧
    nul_column.type_id = STRING_DTYPE ∧
    find_chunk (some nul_column) 0 nul_column.type_id
      = { chunk := some (.utf8 ["a\x00b"]), offset := 0, error := none } ∧
    (chunks_cells nul_column.chunks)[(0 : Int).toNat]? = some (payload_t.cp "a\x00b") ∧
    column_string_at (some nul_column) 0 = { err := none, val := payload_t.cp "a" } ∧
    ¬ ∃ v, (chunks_cells nul_column.chunks)[(0 : Int).toNat]? = some v ∧
      column_string_at (some nul_column) 0 = { err := none, val := v } := by
  refine ⟨by decide, by decide, by decide, by decide, by simp [typed_accessors], rfl,
    by decide, by decide, by decide, ?_⟩
  rintro ⟨v, hv, hr⟩
  have hcell : (chunks_cells nul_column.chunks)[(0 : Int).toNat]?
      = some (payload_t.cp "a\x00b") := by decide
  rw [hcell] at hv
  cases hv
  revert hr
  decide

/-- C1, amended: for a column given as a list of chunks (its length the sum of the chunk
lengths), the column's own type and an index `0 ≤ i < length`, `find_chunk` returns no error
but a chunk `c` and the local offset `k = i - (sum of the lengths of the chunks before c)`
with `0 ≤ k < length(c)`; so, the chunks being of the column's type, each typed accessor of
that type returns the `i`-th element of the concatenation of the chunks, `column_string_at`
as a C string: the element up to its first NUL byte, which is the whole element when it
holds no NUL byte. -/
theorem find_chunk_resolves_index (column : Column) (i : Int)
    (hlen : column.length = chunks_length column.chunks)
    (h0 : 0 ≤ i) (h1 : i < column.length) :
    (∃ c chunk, column.chunks[c]? = some chunk ∧
      find_chunk (some column) i column.type_id
        = { chunk := some chunk, offset := i - chunks_length (column.chunks.take c),
            error := none } ∧
      0 ≤ i - chunks_length (column.chunks.take c) ∧
      i - chunks_length (column.chunks.take c) < chunk.length) ∧
    ((∀ chunk ∈ column.chunks, chunk.type_id = column.type_id) →
      ∀ a ∈ typed_accessors, column.type_id = a.2 →
        ∃ v, (chunks_cells column.chunks)[i.toNat]? = some v ∧
          a.1 (some column) i = { err := none, val := v.returned } ∧
          (a.2 ≠ STRING_DTYPE → a.1 (some column) i = { err := none, val := v }) ∧
          (∀ s, v = payload_t.cp s →
            v.returned = payload_t.cp (c_str s) ∧
            (Char.ofNat 0 ∉ s.data → a.1 (some column) i = { err := none, val := v }))) := by
  refine ⟨find_chunk_in_range column i hlen h0 h1, ?_⟩
  intro htypes a ha ht
  obtain ⟨chunk, k, hf, hmem, hk0, hk1, hcell⟩ := find_chunk_cell column i hlen h0 h1
  have hty := htypes chunk hmem
  rw [ht] at hf hty
  obtain ⟨v, hv, hres, hsame⟩ :=
    typed_accessor_cell a ha (some column) i chunk k hf hty hk0 hk1
  refine ⟨v, hcell.trans hv, hres, fun hne => ?_, fun s hs => ⟨?_, fun hnul => ?_⟩⟩
  · rw [hres, hsame hne]
  · rw [hs]; rfl
  · rw [hres, hs]
    simp only [payload_t.returned]
    rw [c_str_eq_self s hnul]

theorem find_chunk_resolves_index_witness :
    chunked_column.length = chunks_length chunked_column.chunks ∧
    (0 : Int) ≤ 7 ∧ (7 : Int) < chunked_column.length ∧
    (∃ c chunk, chunked_column.chunks[c]? = some chunk ∧
      find_chunk (some chunked_column) 7 chunked_column.type_id
        = { chunk := some chunk, offset := 7 - chunks_length (chunked_column.chunks.take c),
            error := none } ∧
      0 ≤ 7 - chunks_length (chunked_column.chunks.take c) ∧
      7 - chunks_length (chunked_column.chunks.take c) < chunk.length) ∧
    ∃ v, (chunks_cells chunked_column.chunks)[(7 : Int).toNat]? = some v ∧
      column_int_at (some chunked_column) 7 = { err := none, val := v.returned } ∧
      (INTEGER64_DTYPE ≠ STRING_DTYPE →
        column_int_at (some chunked_column) 7 = { err := none, val := v }) ∧
      (∀ s, v = payload_t.cp s →
        v.returned = payload_t.cp (c_str s) ∧
        (Char.ofNat 0 ∉ s.data →
          column_int_at (some chunked_column) 7 = { err := none, val := v })) :=
  have h := find_chunk_resolves_index chunked_column 7 (by decide) (by decide) (by decide)
  ⟨by decide, by decide, by decide, h.1,
    h.2 chunked_column_types (column_int_at, INTEGER64_DTYPE) (by simp [typed_accessors]) rfl⟩

/-- The string accessor on a utf8 column of two chunks: an element without a NUL byte comes
back whole, an element with one comes back cut before it. -/
theorem column_string_at_example :
    (List.range 3).map (fun i => column_string_at (some string_column) i)
      = [{ err := none, val := payload_t.cp "frames" },
         { err := none, val := payload_t.cp "v3" },
         { err := none, val := payload_t.cp "" }] ∧
    chunks_cells string_column.chunks
      = [payload_t.cp "frames", payload_t.cp "v3\x00io", payload_t.cp "\x00"] := by
  refine ⟨by decide, by decide⟩

/-- The chunk positions and local offsets of the indices 0..9 of a column with chunks of
lengths 3, 0, 5 and 2, and the values `column_int_at` reads there. -/
theorem chunked_column_indexing :
    (List.range 10).map (fun i => find_chunk_loop chunked_column.chunks 0 i)
      = [(some 0, 0), (some 0, 1), (some 0, 2), (some 2, 0), (some 2, 1), (some 2, 2),
         (some 2, 3), (some 2, 4), (some 3, 0), (some 3, 1)] ∧
    (List.range 10).map (fun i => column_int_at (some chunked_column) i)
      = (List.range 10).map (fun i => ({ err := none, val := payload_t.i i } : result_t)) ∧
    (column_int_at (some chunked_column) 10).err = some "index out of range" ∧
    (column_int_at (some chunked_column) (-1)).err = some "index out of range" := by
  refine ⟨by decide, by decide, by decide, by decide⟩

/-- C3: for a non-null column of the accessor's type and every integer `i`, a typed accessor
fails with the out-of-range error exactly when `i < 0` or `i ≥ length`; so it fails at `-1`
and at `length`, and on a column whose length is the sum of its chunk lengths it succeeds at
every index in range, `length - 1` of a non-empty column among them. -/
theorem typed_accessor_out_of_range_iff (column : Column) (i : Int)
    (a : (Option Column → Int → result_t) × Int) (ha : a ∈ typed_accessors)
    (ht : column.type_id = a.2) :
    ((a.1 (some column) i).err = some "index out of range" ↔ (i < 0 ∨ i ≥ column.length)) ∧
    (a.1 (some column) (-1)).err = some "index out of range" ∧
    (a.1 (some column) column.length).err = some "index out of range" ∧
    (column.length = chunks_length column.chunks → 0 ≤ i → i < column.length →
      (a.1 (some column) i).err = none) ∧
    (column.length = chunks_length column.chunks → 0 < column.length →
      (a.1 (some column) (column.length - 1)).err = none) := by
  have hout : ∀ j : Int, (j < 0 ∨ j ≥ column.length) →
      (a.1 (some column) j).err = some "index out of range" := by
    intro j hj
    rw [(typed_accessor_err a ha (some column) j).1,
      (find_chunk_error_cases column j a.2).2.1 ht hj]
    rfl
  have hin : ∀ j : Int, column.length = chunks_length column.chunks → 0 ≤ j →
      j < column.length →
      (a.1 (some column) j).err = none := by
    intro j hwf h0 h1
    obtain ⟨c, chunk, -, hf, -, -⟩ := find_chunk_in_range column j hwf h0 h1
    rw [(typed_accessor_err a ha (some column) j).1, ← ht, hf]
  refine ⟨⟨?_, hout i⟩, hout (-1) (Or.inl (by decide)), hout _ (Or.inr (le_refl _)),
    hin i, fun hwf hpos => hin _ hwf (by omega) (by omega)⟩
  intro he
  by_contra hr
  rw [(typed_accessor_err a ha (some column) i).1] at he
  rcases (find_chunk_error_cases column i a.2).2.2 ht hr with h | h <;>
    rw [h] at he <;> revert he <;> decide

theorem typed_accessor_out_of_range_iff_witness :
    (column_int_at, INTEGER64_DTYPE) ∈ typed_accessors ∧
    chunked_column.type_id = INTEGER64_DTYPE ∧
    ((column_int_at (some chunked_column) 10).err = some "index out of range" ↔
      ((10 : Int) < 0 ∨ (10 : Int) ≥ chunked_column.length)) ∧
    (column_int_at (some chunked_column) (-1)).err = some "index out of range" ∧
    (column_int_at (some chunked_column) chunked_column.length).err
      = some "index out of range" ∧
    (column_int_at (some chunked_column) (chunked_column.length - 1)).err = none :=
  have h := typed_accessor_out_of_range_iff chunked_column 10 (column_int_at, INTEGER64_DTYPE)
    (by simp [typed_accessors]) rfl
  ⟨by simp [typed_accessors], rfl, h.1, h.2.1, h.2.2.1,
    h.2.2.2.2 (by decide) (by decide)⟩

/-- C4, as the claim states it, fails: on an int64 column of length 10, `column_bool_at` at
the out-of-range index 10 reports the type mismatch, not the index. -/
theorem range_check_first_counterexample :
    ((10 : Int) < 0 ∨ (10 : Int) ≥ chunked_column.length) ∧
    (column_bool_at, BOOL_DTYPE) ∈ typed_accessors ∧
    (column_bool_at (some chunked_column) 10).err ≠ some "index out of range" ∧
    column_bool_at (some chunked_column) 10
      = { err := some "wrong type", val := payload_t.null } := by
  refine ⟨by decide, by simp [typed_accessors], by decide, by decide⟩

/-- C4, amended: the type is checked before the index range.  For a non-null column and an
index `i < 0` or `i ≥ length`, a typed accessor of the column's type fails with the
out-of-range error, and one of another type fails with the type-mismatch error; neither
returns a value. -/
theorem typed_accessor_type_check_first (column : Column) (i : Int)
    (a : (Option Column → Int → result_t) × Int) (ha : a ∈ typed_accessors)
    (hr : i < 0 ∨ i ≥ column.length) :
    (column.type_id = a.2 →
      a.1 (some column) i = { err := some "index out of range", val := payload_t.null }) ∧
    (column.type_id ≠ a.2 →
      a.1 (some column) i = { err := some "wrong type", val := payload_t.null }) := by
  constructor
  · intro ht
    exact typed_accessor_result a ha _ _ _
      (by rw [(find_chunk_error_cases column i a.2).2.1 ht hr])
  · intro ht
    exact typed_accessor_result a ha _ _ _
      (by rw [(find_chunk_error_cases column i a.2).1 ht])

theorem typed_accessor_type_check_first_witness :
    ((-1 : Int) < 0 ∨ (-1 : Int) ≥ chunked_column.length) ∧
    column_int_at (some chunked_column) (-1)
      = { err := some "index out of range", val := payload_t.null } ∧
    column_string_at (some chunked_column) (-1)
      = { err := some "wrong type", val := payload_t.null } :=
  ⟨by decide,
    (typed_accessor_type_check_first chunked_column (-1) (column_int_at, INTEGER64_DTYPE)
      (by simp [typed_accessors]) (by decide)).1 rfl,
    (typed_accessor_type_check_first chunked_column (-1) (column_string_at, STRING_DTYPE)
      (by simp [typed_accessors]) (by decide)).2 (by decide)⟩

/-- C5: for a non-null column and every index (in range or not), a typed accessor whose type
differs from the column's declared type fails with the error "wrong type" and returns no
value, and an accessor of the column's type never reports "wrong type". -/
theorem typed_accessor_wrong_type (column : Column) (i : Int)
    (a : (Option Column → Int → result_t) × Int) (ha : a ∈ typed_accessors) :
    (column.type_id ≠ a.2 →
      a.1 (some column) i = { err := some "wrong type", val := payload_t.null }) ∧
    (column.type_id = a.2 → (a.1 (some column) i).err ≠ some "wrong type") := by
  constructor
  · intro ht
    exact typed_accessor_result a ha _ _ _
      (by rw [(find_chunk_error_cases column i a.2).1 ht])
  · intro ht he
    rw [(typed_accessor_err a ha (some column) i).1] at he
    by_cases hr : i < 0 ∨ i ≥ column.length
    · rw [(find_chunk_error_cases column i a.2).2.1 ht hr] at he
      revert he; decide
    · rcases (find_chunk_error_cases column i a.2).2.2 ht hr with h | h <;>
        rw [h] at he <;> revert he <;> decide

theorem typed_accessor_wrong_type_witness :
    (column_float_at, FLOAT64_DTYPE) ∈ typed_accessors ∧
    chunked_column.type_id ≠ FLOAT64_DTYPE ∧
    column_float_at (some chunked_column) 7
      = { err := some "wrong type", val := payload_t.null } ∧
    (column_int_at (some chunked_column) 7).err ≠ some "wrong type" :=
  ⟨by simp [typed_accessors], by decide,
    (typed_accessor_wrong_type chunked_column 7 (column_float_at, FLOAT64_DTYPE)
      (by simp [typed_accessors])).1 (by decide),
    (typed_accessor_wrong_type chunked_column 7 (column_int_at, INTEGER64_DTYPE)
      (by simp [typed_accessors])).2 rfl⟩

/-! ## Slicing, the claim -/

/-- C10, as the claim states it, fails: with the `Slice` of the Arrow library, which cuts a
range at the end of the data and never returns a null pointer, `slice(8, 5)` on a 10-row
column and on a 10-row table returns a 2-row slice and no error. -/
theorem slice_past_end_counterexample :
    (8 : Int) + 5 > chunked_column.length ∧
    column_slice Column_Slice (some chunked_column) 8 5
      = { err := none,
          val := payload_t.ptr (object_t.column
            { field := { name := "i", dtype := INTEGER64_DTYPE },
              chunks := [.int64 [8, 9]], length := 2 }) } ∧
    (8 : Int) + 5 > build_table.num_rows ∧
    table_slice Table_Slice (some build_table) 8 5
      = { err := none,
          val := payload_t.ptr (object_t.table
            { schema := [{ name := "i", dtype := INTEGER64_DTYPE }],
              columns := [{ field := { name := "i", dtype := INTEGER64_DTYPE },
                            chunks := [.int64 [8, 9]], length := 2 }],
              num_rows := 2 }) } := by
  refine ⟨by decide, by decide, by decide, by decide⟩

/-- C10, amended: `column_slice` and `table_slice` make no bounds check of their own.  On a
non-null handle they fail, with the error "can't slice" and no handle, exactly when the
library's `Slice` returns a null pointer, and otherwise they return the library's slice whole
(for a table: never a partly sliced one); with the `Slice` of the Arrow library, which never
returns a null pointer, they do not fail.  On a null handle they fail with the error
"null pointer". -/
theorem slice_fails_iff_library_null (SliceC : Column → Int → Int → Option Column)
    (SliceT : Table → Int → Int → Option Table) (column : Column) (table : Table)
    (offset length : Int) :
    ((column_slice SliceC (some column) offset length).err ≠ none ↔
      SliceC column offset length = none) ∧
    (SliceC column offset length = none →
      column_slice SliceC (some column) offset length
        = { err := some "can't slice", val := payload_t.null }) ∧
    (∀ s, SliceC column offset length = some s →
      column_slice SliceC (some column) offset length
        = { err := none, val := payload_t.ptr (object_t.column s) }) ∧
    ((table_slice SliceT (some table) offset length).err ≠ none ↔
      SliceT table offset length = none) ∧
    (SliceT table offset length = none →
      table_slice SliceT (some table) offset length
        = { err := some "can't slice", val := payload_t.null }) ∧
    (∀ s, SliceT table offset length = some s →
      table_slice SliceT (some table) offset length
        = { err := none, val := payload_t.ptr (object_t.table s) }) ∧
    (column_slice Column_Slice (some column) offset length).err = none ∧
    (table_slice Table_Slice (some table) offset length).err = none ∧
    column_slice SliceC none offset length
      = { err := some "null pointer", val := payload_t.null } ∧
    table_slice SliceT none offset length
      = { err := some "null pointer", val := payload_t.null } := by
  refine ⟨?_, ?_, ?_, ?_, ?_, ?_, ?_, ?_, rfl, rfl⟩
  · cases h : SliceC column offset length <;> simp [column_slice, new_result, h]
  · intro h; simp [column_slice, new_result, h]
  · intro s h; simp [column_slice, new_result, h]
  · cases h : SliceT table offset length <;> simp [table_slice, new_result, h]
  · intro h; simp [table_slice, new_result, h]
  · intro s h; simp [table_slice, new_result, h]
  · simp [column_slice, new_result, Column_Slice]
  · simp [table_slice, new_result, Table_Slice]

/-! ## Store client: lemmas on the write path -/

section
variable {σ W B S : Type}

theorem write_table_trace (ipc : ipc_t W B) (sink : sink_t) (Write : S → List Nat → S)
    (batches : List (Except String B)) :
    ∀ (w : W) (s : S), ∀ e ∈ (write_table ipc sink Write batches w s).2.2.2,
      e = event_t.write_record_batch sink := by
  induction batches with
  | nil => intro w s e he; simp [write_table] at he
  | cons b rest ih =>
    intro w s e he
    cases b with
    | error msg => simp [write_table] at he
    | ok batch =>
      simp only [write_table] at he
      cases hw : ipc.WriteRecordBatch w batch with
      | error msg => rw [hw] at he; simpa using he
      | ok r =>
        obtain ⟨w1, bytes⟩ := r
        rw [hw] at he
        simp only [List.mem_cons] at he
        rcases he with h | h
        · exact h
        · exact ih _ _ e h

theorem table_size_cases (ipc : ipc_t W B) (table : Table) :
    (table_size ipc table).1 = { err := some cstr_t.dangling, val := payload_t.null } ∨
    (∃ n, (table_size ipc table).1 = { err := none, val := payload_t.i n }) := by
  unfold table_size
  cases ipc.Open sink_t.mock table.schema with
  | error msg => exact Or.inl rfl
  | ok r =>
    obtain ⟨w, bytes⟩ := r
    simp only
    rcases hwt : write_table ipc sink_t.mock MockOutputStream_Write (ipc.batches table) w
      (MockOutputStream_Write 0 bytes) with ⟨st, w1, stream, tr⟩
    cases st with
    | error msg => exact Or.inl rfl
    | OK =>
      simp only
      cases ipc.Close w1 with
      | error msg => exact Or.inl rfl
      | ok r2 => obtain ⟨w2, last⟩ := r2; exact Or.inr ⟨_, rfl⟩

theorem table_size_trace (ipc : ipc_t W B) (table : Table) :
    ∀ e ∈ (table_size ipc table).2, e.step = 0 := by
  unfold table_size
  cases ipc.Open sink_t.mock table.schema with
  | error msg => intro e he; simp at he; subst he; rfl
  | ok r =>
    obtain ⟨w, bytes⟩ := r
    simp only
    have htr := write_table_trace ipc sink_t.mock MockOutputStream_Write (ipc.batches table) w
      (MockOutputStream_Write 0 bytes)
    rcases hwt : write_table ipc sink_t.mock MockOutputStream_Write (ipc.batches table) w
      (MockOutputStream_Write 0 bytes) with ⟨st, w1, stream, tr⟩
    rw [hwt] at htr
    simp only at htr
    cases st with
    | error msg =>
      intro e he
      simp only [List.mem_cons] at he
      rcases he with h | h
      · subst h; rfl
      · rw [htr e h]; rfl
    | OK =>
      simp only
      cases ipc.Close w1 with
      | error msg =>
        intro e he
        simp only [List.mem_cons, List.mem_append, List.mem_singleton, List.not_mem_nil,
          or_false] at he
        rcases he with (h | h) | h
        · subst h; rfl
        · rw [htr e h]; rfl
        · subst h; rfl
      | ok r2 =>
        obtain ⟨w2, last⟩ := r2
        intro e he
        simp only [List.mem_cons, List.mem_append, List.mem_singleton, List.not_mem_nil,
          or_false] at he
        rcases he with (h | h) | h
        · subst h; rfl
        · rw [htr e h]; rfl
        · subst h; rfl

/-- The run of `plasma_write` on non-null arguments, step by step. -/
theorem plasma_write_run (store : plasma_t σ) (ipc : ipc_t W B) (client : σ)
    (table : Table) (id : String) :
    ((table_size ipc table).1.err ≠ none →
      (plasma_write store ipc (some client) (some table) (some id)).res
          = { err := some cstr_t.dangling, val := payload_t.null } ∧
        (plasma_write store ipc (some client) (some table) (some id)).trace
          = (table_size ipc table).2 ∧
        (plasma_write store ipc (some client) (some table) (some id)).written = []) ∧
    (∀ size, (table_size ipc table).1 = { err := none, val := payload_t.i size } →
      (∀ msg c1, store.Create client id size = (Status.error msg, c1) →
        (plasma_write store ipc (some client) (some table) (some id)).res
            = { err := some cstr_t.dangling, val := payload_t.null } ∧
          (plasma_write store ipc (some client) (some table) (some id)).trace
            = (table_size ipc table).2 ++ [event_t.create id size] ∧
          (plasma_write store ipc (some client) (some table) (some id)).written = []) ∧
      (∀ c1, store.Create client id size = (Status.OK, c1) →
        (∀ msg, ipc.Open sink_t.buffer table.schema = Except.error msg →
          (plasma_write store ipc (some client) (some table) (some id)).res
              = { err := some cstr_t.dangling, val := payload_t.null } ∧
            (plasma_write store ipc (some client) (some table) (some id)).trace
              = (table_size ipc table).2 ++
                [event_t.create id size, event_t.writer_open sink_t.buffer] ∧
            (plasma_write store ipc (some client) (some table) (some id)).written = []) ∧
        (∀ w bytes st w1 data tr, ipc.Open sink_t.buffer table.schema = Except.ok (w, bytes) →
          write_table ipc sink_t.buffer FixedSizeBufferWriter_Write (ipc.batches table) w
            (FixedSizeBufferWriter_Write [] bytes) = (st, w1, data, tr) →
          (plasma_write store ipc (some client) (some table) (some id)).written = data ∧
          (∀ msg, st = Status.error msg →
            (plasma_write store ipc (some client) (some table) (some id)).res
                = { err := some cstr_t.dangling, val := payload_t.null } ∧
              (plasma_write store ipc (some client) (some table) (some id)).trace
                = (table_size ipc table).2 ++
                  [event_t.create id size, event_t.writer_open sink_t.buffer] ++ tr) ∧
          (st = Status.OK →
            (∀ msg c2, store.Seal c1 id = (Status.error msg, c2) →
              (plasma_write store ipc (some client) (some table) (some id)).res
                  = { err := some cstr_t.dangling, val := payload_t.null } ∧
                (plasma_write store ipc (some client) (some table) (some id)).trace
                  = (table_size ipc table).2 ++
                    [event_t.create id size, event_t.writer_open sink_t.buffer] ++ tr ++
                    [event_t.seal id]) ∧
            (∀ c2, store.Seal c1 id = (Status.OK, c2) →
              (plasma_write store ipc (some client) (some table) (some id)).res
                  = { err := none, val := payload_t.i size } ∧
                (plasma_write store ipc (some client) (some table) (some id)).trace
                  = (table_size ipc table).2 ++
                    [event_t.create id size, event_t.writer_open sink_t.buffer] ++ tr ++
                    [event_t.seal id]))))) := by
  refine ⟨?_, ?_⟩
  · intro hp
    rcases table_size_cases ipc table with hm | ⟨n, hn⟩
    · simp [plasma_write, hm]
    · rw [hn] at hp; simp at hp
  · intro size hp
    refine ⟨?_, ?_⟩
    · intro msg c1 hc
      simp [plasma_write, hp, result_i, hc, new_result, RETURN_IF_ERROR]
    · intro c1 hc
      refine ⟨?_, ?_⟩
      · intro msg ho
        simp [plasma_write, hp, result_i, hc, ho, new_result, RETURN_IF_ERROR]
      · intro w bytes st w1 data tr ho hw
        refine ⟨?_, ?_, ?_⟩
        · cases st with
          | error msg => simp [plasma_write, hp, result_i, hc, ho, hw]
          | OK =>
            rcases hs : store.Seal c1 id with ⟨ss, c2⟩
            cases ss <;> simp [plasma_write, hp, result_i, hc, ho, hw, hs]
        · intro msg hst
          subst hst
          simp [plasma_write, hp, result_i, hc, ho, hw, new_result, RETURN_IF_ERROR]
        · intro hst
          subst hst
          refine ⟨?_, ?_⟩
          · intro msg c2 hs
            simp [plasma_write, hp, result_i, hc, ho, hw, hs, new_result, RETURN_IF_ERROR]
          · intro c2 hs
            simp [plasma_write, hp, result_i, hc, ho, hw, hs]

/-- The six ways a run of `plasma_write` on non-null arguments ends. -/
theorem plasma_write_cases (store : plasma_t σ) (ipc : ipc_t W B) (client : σ)
    (table : Table) (id : String) :
    ((table_size ipc table).1 = { err := some cstr_t.dangling, val := payload_t.null } ∧
      (plasma_write store ipc (some client) (some table) (some id)).res
        = { err := some cstr_t.dangling, val := payload_t.null } ∧
      (plasma_write store ipc (some client) (some table) (some id)).trace
        = (table_size ipc table).2) ∨
    (∃ size msg c1, (table_size ipc table).1 = { err := none, val := payload_t.i size } ∧
      store.Create client id size = (Status.error msg, c1) ∧
      (plasma_write store ipc (some client) (some table) (some id)).res
        = { err := some cstr_t.dangling, val := payload_t.null } ∧
      (plasma_write store ipc (some client) (some table) (some id)).trace
        = (table_size ipc table).2 ++ [event_t.create id size]) ∨
    (∃ size c1 msg, (table_size ipc table).1 = { err := none, val := payload_t.i size } ∧
      store.Create client id size = (Status.OK, c1) ∧
      ipc.Open sink_t.buffer table.schema = Except.error msg ∧
      (plasma_write store ipc (some client) (some table) (some id)).res
        = { err := some cstr_t.dangling, val := payload_t.null } ∧
      (plasma_write store ipc (some client) (some table) (some id)).trace
        = (table_size ipc table).2 ++
          [event_t.create id size, event_t.writer_open sink_t.buffer]) ∨
    (∃ size c1 w bytes msg w1 data tr,
      (table_size ipc table).1 = { err := none, val := payload_t.i size } ∧
      store.Create client id size = (Status.OK, c1) ∧
      ipc.Open sink_t.buffer table.schema = Except.ok (w, bytes) ∧
      write_table ipc sink_t.buffer FixedSizeBufferWriter_Write (ipc.batches table) w
        (FixedSizeBufferWriter_Write [] bytes) = (Status.error msg, w1, data, tr) ∧
      (plasma_write store ipc (some client) (some table) (some id)).res
        = { err := some cstr_t.dangling, val := payload_t.null } ∧
      (plasma_write store ipc (some client) (some table) (some id)).trace
        = (table_size ipc table).2 ++
          [event_t.create id size, event_t.writer_open sink_t.buffer] ++ tr) ∨
    (∃ size c1 w bytes w1 data tr msg c2,
      (table_size ipc table).1 = { err := none, val := payload_t.i size } ∧
      store.Create client id size = (Status.OK, c1) ∧
      ipc.Open sink_t.buffer table.schema = Except.ok (w, bytes) ∧
      write_table ipc sink_t.buffer FixedSizeBufferWriter_Write (ipc.batches table) w
        (FixedSizeBufferWriter_Write [] bytes) = (Status.OK, w1, data, tr) ∧
      store.Seal c1 id = (Status.error msg, c2) ∧
      (plasma_write store ipc (some client) (some table) (some id)).res
        = { err := some cstr_t.dangling, val := payload_t.null } ∧
      (plasma_write store ipc (some client) (some table) (some id)).trace
        = (table_size ipc table).2 ++
          [event_t.create id size, event_t.writer_open sink_t.buffer] ++ tr ++
          [event_t.seal id]) ∨
    (∃ size c1 w bytes w1 data tr c2,
      (table_size ipc table).1 = { err := none, val := payload_t.i size } ∧
      store.Create client id size = (Status.OK, c1) ∧
      ipc.Open sink_t.buffer table.schema = Except.ok (w, bytes) ∧
      write_table ipc sink_t.buffer FixedSizeBufferWriter_Write (ipc.batches table) w
        (FixedSizeBufferWriter_Write [] bytes) = (Status.OK, w1, data, tr) ∧
      store.Seal c1 id = (Status.OK, c2) ∧
      (plasma_write store ipc (some client) (some table) (some id)).res
        = { err := none, val := payload_t.i size } ∧
      (plasma_write store ipc (some client) (some table) (some id)).trace
        = (table_size ipc table).2 ++
          [event_t.create id size, event_t.writer_open sink_t.buffer] ++ tr ++
          [event_t.seal id] ∧
      (plasma_write store ipc (some client) (some table) (some id)).written = data) := by
  obtain ⟨hfail, hrun⟩ := plasma_write_run store ipc client table id
  rcases table_size_cases ipc table with hm | ⟨size, hp⟩
  · obtain ⟨h1, h2, -⟩ := hfail (by rw [hm]; simp)
    exact Or.inl ⟨hm, h1, h2⟩
  · obtain ⟨hcreate, hrest⟩ := hrun size hp
    right
    rcases hc : store.Create client id size with ⟨sc, c1⟩
    cases sc with
    | error msg =>
      obtain ⟨h1, h2, -⟩ := hcreate msg c1 hc
      exact Or.inl ⟨size, msg, c1, hp, hc, h1, h2⟩
    | OK =>
      right
      obtain ⟨hopen, hwrite⟩ := hrest c1 hc
      cases ho : ipc.Open sink_t.buffer table.schema with
      | error msg =>
        obtain ⟨h1, h2, -⟩ := hopen msg ho
        exact Or.inl ⟨size, c1, msg, hp, hc, rfl, h1, h2⟩
      | ok r =>
        obtain ⟨w, bytes⟩ := r
        right
        rcases hw : write_table ipc sink_t.buffer FixedSizeBufferWriter_Write
          (ipc.batches table) w (FixedSizeBufferWriter_Write [] bytes) with ⟨st, w1, data, tr⟩
        obtain ⟨hdata, hwfail, hwok⟩ := hwrite w bytes st w1 data tr ho hw
        cases st with
        | error msg =>
          obtain ⟨h1, h2⟩ := hwfail msg rfl
          exact Or.inl ⟨size, c1, w, bytes, msg, w1, data, tr, hp, hc, rfl, hw, h1, h2⟩
        | OK =>
          right
          obtain ⟨hsfail, hsok⟩ := hwok rfl
          rcases hs : store.Seal c1 id with ⟨ss, c2⟩
          cases ss with
          | error msg =>
            obtain ⟨h1, h2⟩ := hsfail msg c2 hs
            exact Or.inl
              ⟨size, c1, w, bytes, w1, data, tr, msg, c2, hp, hc, rfl, hw, hs, h1, h2⟩
          | OK =>
            obtain ⟨h1, h2⟩ := hsok c2 hs
            exact Or.inr
              ⟨size, c1, w, bytes, w1, data, tr, c2, hp, hc, rfl, hw, hs, h1, h2, hdata⟩

theorem write_path_before (p tr : List event_t) (id : String) (size : Int)
    (hp : ∀ e ∈ p, e.step = 0) (ht : ∀ e ∈ tr, e = event_t.write_record_batch sink_t.buffer) :
    List.Pairwise event_t.before
      (p ++ [event_t.create id size, event_t.writer_open sink_t.buffer] ++ tr ++
        [event_t.seal id]) := by
  have ht3 : ∀ e ∈ tr, e.step = 3 := fun e he => by rw [ht e he]; rfl
  have hpp : List.Pairwise event_t.before p :=
    List.pairwise_of_forall_mem_list
      (fun a ha b hb => Or.inr ⟨by rw [hp a ha, hp b hb], Or.inl (hp a ha)⟩)
  have htt : List.Pairwise event_t.before tr :=
    List.pairwise_of_forall_mem_list
      (fun a ha b hb => Or.inr ⟨by rw [ht3 a ha, ht3 b hb], Or.inr (ht3 a ha)⟩)
  simp only [List.pairwise_append, List.pairwise_cons, List.mem_append, List.mem_cons,
    List.mem_singleton, List.not_mem_nil, or_false, List.Pairwise.nil, and_true]
  refine ⟨⟨⟨hpp, ⟨?_, ?_⟩, ?_⟩, htt, ?_⟩, ?_, ?_⟩
  · intro b hb; subst hb; exact Or.inl (by simp [event_t.step])
  · intro a ha; exact absurd ha (by simp)
  · intro a ha b hb
    refine Or.inl ?_
    rw [hp a ha]
    rcases hb with hb | hb <;> subst hb <;> simp [event_t.step]
  · intro a ha b hb
    refine Or.inl ?_
    rw [ht3 b hb]
    rcases ha with ha | ha | ha
    · rw [hp a ha]; decide
    · subst ha; simp [event_t.step]
    · subst ha; simp [event_t.step]
  · intro a ha; exact absurd ha (by simp)
  · intro a ha b hb
    subst hb
    refine Or.inl ?_
    rcases ha with (ha | ha | ha) | ha
    · rw [hp a ha]; simp [event_t.step]
    · subst ha; simp [event_t.step]
    · subst ha; simp [event_t.step]
    · rw [ht3 a ha]; simp [event_t.step]

theorem write_path_step_le (p tr : List event_t) (id : String) (size : Int)
    (hp : ∀ e ∈ p, e.step = 0) (ht : ∀ e ∈ tr, e = event_t.write_record_batch sink_t.buffer) :
    ∀ e ∈ p ++ [event_t.create id size, event_t.writer_open sink_t.buffer] ++ tr ++
        [event_t.seal id], e.step ≤ 4 := by
  intro e he
  simp only [List.mem_append, List.mem_cons, List.mem_singleton, List.not_mem_nil,
    or_false] at he
  rcases he with ((he | he | he) | he) | he
  · rw [hp e he]; decide
  · subst he; simp [event_t.step]
  · subst he; simp [event_t.step]
  · rw [ht e he]; simp [event_t.step]
  · subst he; simp [event_t.step]

theorem table_size_trace_head (ipc : ipc_t W B) (table : Table) :
    ∃ rest, (table_size ipc table).2 = event_t.writer_open sink_t.mock :: rest := by
  unfold table_size
  cases ipc.Open sink_t.mock table.schema with
  | error msg => exact ⟨[], rfl⟩
  | ok r =>
    obtain ⟨w, bytes⟩ := r
    simp only
    rcases write_table ipc sink_t.mock MockOutputStream_Write (ipc.batches table) w
      (MockOutputStream_Write 0 bytes) with ⟨st, w1, stream, tr⟩
    cases st with
    | error msg => exact ⟨_, rfl⟩
    | OK =>
      simp only
      cases ipc.Close w1 with
      | error msg => exact ⟨_, rfl⟩
      | ok r2 => exact ⟨_, rfl⟩

/-- Every trace of `plasma_write` on non-null arguments starts with the probe's trace and is
a part of the full write path. -/
theorem plasma_write_trace_shape (store : plasma_t σ) (ipc : ipc_t W B) (client : σ)
    (table : Table) (id : String) :
    ∃ size tr more, (∀ e ∈ tr, e = event_t.write_record_batch sink_t.buffer) ∧
      (plasma_write store ipc (some client) (some table) (some id)).trace
        = (table_size ipc table).2 ++ more ∧
      List.Sublist (plasma_write store ipc (some client) (some table) (some id)).trace
        ((table_size ipc table).2 ++
          [event_t.create id size, event_t.writer_open sink_t.buffer] ++ tr ++
          [event_t.seal id]) := by
  rcases plasma_write_cases store ipc client table id with
    ⟨-, -, ht⟩ | ⟨size, msg, c1, -, -, -, ht⟩ | ⟨size, c1, msg, -, -, -, -, ht⟩ |
    ⟨size, c1, w, bytes, msg, w1, data, tr, -, -, -, hw, -, ht⟩ |
    ⟨size, c1, w, bytes, w1, data, tr, msg, c2, -, -, -, hw, -, -, ht⟩ |
    ⟨size, c1, w, bytes, w1, data, tr, c2, -, -, -, hw, -, -, ht, -⟩
  · refine ⟨0, [], [], by simp, by simp [ht], ?_⟩
    rw [ht]; simp [List.append_assoc]
  · refine ⟨size, [], _, by simp, ht, ?_⟩
    rw [ht]; simp [List.append_assoc]
  · refine ⟨size, [], _, by simp, ht, ?_⟩
    rw [ht]; simp [List.append_assoc]
  · have htr := write_table_trace ipc sink_t.buffer FixedSizeBufferWriter_Write
      (ipc.batches table) w (FixedSizeBufferWriter_Write [] bytes)
    rw [hw] at htr
    refine ⟨size, tr, _, htr, by rw [ht, List.append_assoc], ?_⟩
    rw [ht]; simp [List.append_assoc]
  · have htr := write_table_trace ipc sink_t.buffer FixedSizeBufferWriter_Write
      (ipc.batches table) w (FixedSizeBufferWriter_Write [] bytes)
    rw [hw] at htr
    refine ⟨size, tr, _, htr, by rw [ht, List.append_assoc, List.append_assoc], ?_⟩
    rw [ht]
  · have htr := write_table_trace ipc sink_t.buffer FixedSizeBufferWriter_Write
      (ipc.batches table) w (FixedSizeBufferWriter_Write [] bytes)
    rw [hw] at htr
    refine ⟨size, tr, _, htr, by rw [ht, List.append_assoc, List.append_assoc], ?_⟩
    rw [ht]

theorem write_table_stops_at_read (ipc : ipc_t W B) (sink : sink_t) (Write : S → List Nat → S)
    (pre post : List (Except String B)) (msg : String) :
    ∀ (w : W) (s : S) (w1 : W) (s1 : S) (tr : List event_t),
      write_table ipc sink Write pre w s = (Status.OK, w1, s1, tr) →
      write_table ipc sink Write (pre ++ Except.error msg :: post) w s
        = (Status.error msg, w1, s1, tr) := by
  induction pre with
  | nil =>
    intro w s w1 s1 tr h
    simp only [write_table, Prod.mk.injEq, true_and] at h
    obtain ⟨rfl, rfl, rfl⟩ := h
    simp [write_table]
  | cons b rest ih =>
    intro w s w1 s1 tr h
    cases b with
    | error m => simp [write_table] at h
    | ok batch =>
      rw [List.cons_append, write_table]
      rw [write_table] at h
      cases hw : ipc.WriteRecordBatch w batch with
      | error m => rw [hw] at h; simp at h
      | ok r =>
        obtain ⟨w2, bytes⟩ := r
        rw [hw] at h
        simp only [Prod.mk.injEq] at h ⊢
        obtain ⟨h1, h2, h3, h4⟩ := h
        have hrest : write_table ipc sink Write rest w2 (Write s bytes)
            = (Status.OK, w1, s1, (write_table ipc sink Write rest w2 (Write s bytes)).2.2.2) := by
          rw [← h1, ← h2, ← h3]
        rw [ih _ _ _ _ _ hrest, ← h4]
        simp

theorem write_table_stops_at_write (ipc : ipc_t W B) (sink : sink_t)
    (Write : S → List Nat → S) (pre post : List (Except String B)) (batch : B) (msg : String) :
    ∀ (w : W) (s : S) (w1 : W) (s1 : S) (tr : List event_t),
      write_table ipc sink Write pre w s = (Status.OK, w1, s1, tr) →
      ipc.WriteRecordBatch w1 batch = Except.error msg →
      write_table ipc sink Write (pre ++ Except.ok batch :: post) w s
        = (Status.error msg, w1, s1, tr ++ [event_t.write_record_batch sink]) := by
  induction pre with
  | nil =>
    intro w s w1 s1 tr h hb
    simp only [write_table, Prod.mk.injEq, true_and] at h
    obtain ⟨rfl, rfl, rfl⟩ := h
    simp [write_table, hb]
  | cons b rest ih =>
    intro w s w1 s1 tr h hb
    cases b with
    | error m => simp [write_table] at h
    | ok b0 =>
      rw [List.cons_append, write_table]
      rw [write_table] at h
      cases hw : ipc.WriteRecordBatch w b0 with
      | error m => rw [hw] at h; simp at h
      | ok r =>
        obtain ⟨w2, bytes⟩ := r
        rw [hw] at h
        simp only [Prod.mk.injEq] at h ⊢
        obtain ⟨h1, h2, h3, h4⟩ := h
        have hrest : write_table ipc sink Write rest w2 (Write s bytes)
            = (Status.OK, w1, s1, (write_table ipc sink Write rest w2 (Write s bytes)).2.2.2) := by
          rw [← h1, ← h2, ← h3]
        rw [ih _ _ _ _ _ hrest hb, ← h4]
        simp

/-- The writer sends the same bytes to the size-only sink and to the buffer: the two runs of
`write_table` end alike, and the extent grows by the number of bytes the buffer takes. -/
theorem write_table_mock_buffer (ipc : ipc_t W B) (batches : List (Except String B)) :
    ∀ (w : W) (extent : Int) (data : List Nat),
      (write_table ipc sink_t.mock MockOutputStream_Write batches w extent).1
        = (write_table ipc sink_t.buffer FixedSizeBufferWriter_Write batches w data).1 ∧
      (write_table ipc sink_t.mock MockOutputStream_Write batches w extent).2.1
        = (write_table ipc sink_t.buffer FixedSizeBufferWriter_Write batches w data).2.1 ∧
      (write_table ipc sink_t.mock MockOutputStream_Write batches w extent).2.2.1 - extent
        = ((write_table ipc sink_t.buffer FixedSizeBufferWriter_Write batches w
            data).2.2.1.length : Int) - data.length := by
  induction batches with
  | nil => intro w extent data; simp [write_table]
  | cons b rest ih =>
    intro w extent data
    cases b with
    | error m => simp [write_table]
    | ok batch =>
      simp only [write_table]
      cases hw : ipc.WriteRecordBatch w batch with
      | error m => simp
      | ok r =>
        obtain ⟨w2, bytes⟩ := r
        obtain ⟨h1, h2, h3⟩ := ih w2 (MockOutputStream_Write extent bytes)
          (FixedSizeBufferWriter_Write data bytes)
        refine ⟨h1, h2, ?_⟩
        simp only [MockOutputStream_Write, FixedSizeBufferWriter_Write, List.length_append,
          Nat.cast_add] at h3 ⊢
        omega

theorem no_seal_before (p tr : List event_t) (more : List event_t) (x : String)
    (hp : ∀ e ∈ p, e.step = 0) (ht : ∀ e ∈ tr, e = event_t.write_record_batch sink_t.buffer)
    (hm : ∀ e ∈ more, e.step = 1 ∨ e.step = 2) :
    event_t.seal x ∉ p ++ more ++ tr := by
  intro h
  simp only [List.mem_append] at h
  rcases h with (h | h) | h
  · have := hp _ h; simp [event_t.step] at this
  · have := hm _ h; simp [event_t.step] at this
  · have := ht _ h; simp at this

theorem filter_is_create_write_path (p tr : List event_t) (id : String) (size : Int)
    (hp : ∀ e ∈ p, e.step = 0) (ht : ∀ e ∈ tr, e = event_t.write_record_batch sink_t.buffer) :
    (p ++ [event_t.create id size, event_t.writer_open sink_t.buffer] ++ tr ++
        [event_t.seal id]).filter event_t.is_create = [event_t.create id size] := by
  have h1 : p.filter event_t.is_create = [] := by
    rw [List.filter_eq_nil_iff]
    intro e he
    have := hp e he
    cases e <;> simp_all [event_t.step, event_t.is_create]
  have h2 : tr.filter event_t.is_create = [] := by
    rw [List.filter_eq_nil_iff]
    intro e he
    rw [ht e he]; simp [event_t.is_create]
  simp [List.filter_append, h1, h2, List.filter_cons, event_t.is_create]

/-! ## Store client, the claims -/

/-- C6: for every successful `plasma_write`, the size passed to the store's `Create` is the
byte count `table_size` returned, `Create` is called exactly once (for the given
identifier), and `plasma_write` returns that same size. -/
theorem plasma_write_creates_probed_size (store : plasma_t σ) (ipc : ipc_t W B)
    (cp : Option σ) (tp : Option Table) (oid : Option String)
    (hok : (plasma_write store ipc cp tp oid).res.err = none) :
    ∃ client table id size, cp = some client ∧ tp = some table ∧ oid = some id ∧
      (table_size ipc table).1 = { err := none, val := payload_t.i size } ∧
      (plasma_write store ipc cp tp oid).trace.filter event_t.is_create
        = [event_t.create id size] ∧
      (plasma_write store ipc cp tp oid).res = { err := none, val := payload_t.i size } := by
  cases cp with
  | none => simp [plasma_write] at hok
  | some client =>
    cases tp with
    | none => simp [plasma_write] at hok
    | some table =>
      cases oid with
      | none => simp [plasma_write] at hok
      | some id =>
        refine ⟨client, table, id, ?_⟩
        rcases plasma_write_cases store ipc client table id with
          ⟨-, hr, -⟩ | ⟨size, msg, c1, -, -, hr, -⟩ | ⟨size, c1, msg, -, -, -, hr, -⟩ |
          ⟨size, c1, w, bytes, msg, w1, data, tr, -, -, -, -, hr, -⟩ |
          ⟨size, c1, w, bytes, w1, data, tr, msg, c2, -, -, -, -, -, hr, -⟩ |
          ⟨size, c1, w, bytes, w1, data, tr, c2, hp, -, -, hw, -, hr, ht, -⟩
        · rw [hr] at hok; simp at hok
        · rw [hr] at hok; simp at hok
        · rw [hr] at hok; simp at hok
        · rw [hr] at hok; simp at hok
        · rw [hr] at hok; simp at hok
        · have htr := write_table_trace ipc sink_t.buffer FixedSizeBufferWriter_Write
            (ipc.batches table) w (FixedSizeBufferWriter_Write [] bytes)
          rw [hw] at htr
          refine ⟨size, rfl, rfl, rfl, hp, ?_, hr⟩
          rw [ht]
          exact filter_is_create_write_path _ _ _ _ (table_size_trace ipc table) htr

theorem plasma_write_creates_probed_size_witness :
    (plasma_write list_store marker_codec (some []) (some build_table)
        (some "0000000000000000obj1")).res.err = none ∧
    ∃ client table id size, some ([] : List String) = some client ∧
      some build_table = some table ∧ some "0000000000000000obj1" = some id ∧
      (table_size marker_codec table).1 = { err := none, val := payload_t.i size } ∧
      (plasma_write list_store marker_codec (some []) (some build_table)
          (some "0000000000000000obj1")).trace.filter event_t.is_create
        = [event_t.create id size] ∧
      (plasma_write list_store marker_codec (some []) (some build_table)
          (some "0000000000000000obj1")).res = { err := none, val := payload_t.i size } :=
  ⟨by decide, plasma_write_creates_probed_size list_store marker_codec (some [])
    (some build_table) (some "0000000000000000obj1") (by decide)⟩

/-- C8: when the store returns a number of buffers other than one for the identifier (two or
more among them), `plasma_read` returns an error (a non-null `err`) and no table (a null
`ptr`), and makes no call to the reader of the codec: the first buffer is not
deserialized. -/
theorem plasma_read_one_buffer_only (store : plasma_t σ) (ipc : ipc_t W B) (client : σ)
    (id : String) (timeout_ms : Int) (buffers : List (List Nat)) (c1 : σ)
    (hget : store.Get client id timeout_ms = (Status.OK, buffers, c1))
    (hn : buffers.length ≠ 1) :
    (plasma_read store ipc (some client) (some id) timeout_ms).res.err ≠ none ∧
    (plasma_read store ipc (some client) (some id) timeout_ms).res.val = payload_t.null ∧
    (plasma_read store ipc (some client) (some id) timeout_ms).trace
      = [event_t.get id timeout_ms] ∧
    event_t.reader_open ∉ (plasma_read store ipc (some client) (some id) timeout_ms).trace ∧
    event_t.from_record_batches ∉
      (plasma_read store ipc (some client) (some id) timeout_ms).trace := by
  have ht : (plasma_read store ipc (some client) (some id) timeout_ms).trace
      = [event_t.get id timeout_ms] := by
    simp [plasma_read, hget, hn]
  refine ⟨by simp [plasma_read, hget, hn], by simp [plasma_read, hget, hn], ht, ?_, ?_⟩ <;>
    rw [ht] <;> simp

theorem plasma_read_one_buffer_only_witness :
    two_buffer_store.Get () "0000000000000000obj1" 100 = (Status.OK, [[1], [2]], ()) ∧
    ([[1], [2]] : List (List Nat)).length ≠ 1 ∧
    (plasma_read two_buffer_store marker_codec (some ()) (some "0000000000000000obj1")
      100).res.err ≠ none ∧
    (plasma_read two_buffer_store marker_codec (some ()) (some "0000000000000000obj1")
      100).res.val = payload_t.null ∧
    (plasma_read two_buffer_store marker_codec (some ()) (some "0000000000000000obj1")
      100).trace = [event_t.get "0000000000000000obj1" 100] ∧
    event_t.reader_open ∉ (plasma_read two_buffer_store marker_codec (some ())
      (some "0000000000000000obj1") 100).trace ∧
    event_t.from_record_batches ∉ (plasma_read two_buffer_store marker_codec (some ())
      (some "0000000000000000obj1") 100).trace :=
  ⟨rfl, by decide, plasma_read_one_buffer_only two_buffer_store marker_codec ()
    "0000000000000000obj1" 100 [[1], [2]] () rfl (by decide)⟩

/-- C9: `plasma_write` returns the error "null pointer" whenever the connection, the table or
the identifier is null, and `plasma_read` whenever the connection or the identifier is null;
no call to the store or to the codec is made then.  When all arguments are non-null the check
does not return: the function goes on to its first call, the opening of the probe's writer
for `plasma_write` and `Get` for `plasma_read`. -/
theorem plasma_null_pointer_check (store : plasma_t σ) (ipc : ipc_t W B)
    (cp : Option σ) (tp : Option Table) (oid : Option String) (timeout_ms : Int) :
    ((cp = none ∨ tp = none ∨ oid = none) →
      (plasma_write store ipc cp tp oid).res
          = { err := some "null pointer", val := payload_t.null } ∧
        (plasma_write store ipc cp tp oid).trace = [] ∧
        (plasma_write store ipc cp tp oid).written = [] ∧
        (plasma_write store ipc cp tp oid).client = cp) ∧
    ((cp ≠ none ∧ tp ≠ none ∧ oid ≠ none) →
      (plasma_write store ipc cp tp oid).trace.head?
        = some (event_t.writer_open sink_t.mock)) ∧
    ((cp = none ∨ oid = none) →
      (plasma_read store ipc cp oid timeout_ms).res
          = { err := some "null pointer", val := payload_t.null } ∧
        (plasma_read store ipc cp oid timeout_ms).trace = [] ∧
        (plasma_read store ipc cp oid timeout_ms).client = cp) ∧
    ((cp ≠ none ∧ oid ≠ none) →
      ∃ id, oid = some id ∧
        (plasma_read store ipc cp oid timeout_ms).trace.head?
          = some (event_t.get id timeout_ms)) := by
  refine ⟨?_, ?_, ?_, ?_⟩
  · intro h
    cases cp <;> cases tp <;> cases oid <;> simp_all [plasma_write]
  · rintro ⟨h1, h2, h3⟩
    obtain ⟨client, rfl⟩ := Option.ne_none_iff_exists'.mp h1
    obtain ⟨table, rfl⟩ := Option.ne_none_iff_exists'.mp h2
    obtain ⟨id, rfl⟩ := Option.ne_none_iff_exists'.mp h3
    obtain ⟨size, tr, more, -, ht, -⟩ := plasma_write_trace_shape store ipc client table id
    obtain ⟨rest, hrest⟩ := table_size_trace_head ipc table
    rw [ht, hrest]; rfl
  · intro h
    cases cp <;> cases oid <;> simp_all [plasma_read]
  · rintro ⟨h1, h3⟩
    obtain ⟨client, rfl⟩ := Option.ne_none_iff_exists'.mp h1
    obtain ⟨id, rfl⟩ := Option.ne_none_iff_exists'.mp h3
    refine ⟨id, rfl, ?_⟩
    simp only [plasma_read]
    rcases store.Get client id timeout_ms with ⟨st, buffers, c1⟩
    cases st with
    | error msg => rfl
    | OK =>
      simp only
      split
      · rfl
      · cases ipc.ReaderOpen (buffers.headD []) with
        | error msg => rfl
        | ok reads =>
          simp only
          cases read_batches reads with
          | error msg => rfl
          | ok batches =>
            simp only
            cases ipc.FromRecordBatches batches <;> rfl

theorem plasma_null_pointer_check_witness :
    (plasma_write list_store marker_codec none (some build_table)
        (some "0000000000000000obj1")).res
      = { err := some "null pointer", val := payload_t.null } ∧
    (plasma_write list_store marker_codec none (some build_table)
        (some "0000000000000000obj1")).trace = [] ∧
    (plasma_write list_store marker_codec (some []) (some build_table)
        (some "0000000000000000obj1")).trace.head? = some (event_t.writer_open sink_t.mock) ∧
    (plasma_read list_store marker_codec (some []) none 100).res
      = { err := some "null pointer", val := payload_t.null } :=
  ⟨((plasma_null_pointer_check list_store marker_codec none (some build_table)
      (some "0000000000000000obj1") 100).1 (Or.inl rfl)).1,
   ((plasma_null_pointer_check list_store marker_codec none (some build_table)
      (some "0000000000000000obj1") 100).1 (Or.inl rfl)).2.1,
   (plasma_null_pointer_check list_store marker_codec (some []) (some build_table)
      (some "0000000000000000obj1") 100).2.1 ⟨by simp, by simp, by simp⟩,
   ((plasma_null_pointer_check list_store marker_codec (some []) (some build_table)
      none 100).2.2.1 (Or.inr rfl)).1⟩

/-- The order of the steps of `plasma_write`.  Its calls come in the order probe, `Create`,
opening of the writer on the buffer, batch writes, `Seal`, with one `Create`, one opening
and one `Seal` at most.  A run ends in one of six ways: the probe fails; `Create` fails; the
opening fails; a batch write (or the table's batch reader) fails; `Seal` fails; all succeed.
In the first five the result is an error without a value and no call of a later step is
made; the error pointer is the one `RETURN_IF_ERROR` hands over, which points at the
destroyed message of the failed status and not at its text.  `Seal` is called exactly when
probe, `Create`, opening and writing all succeeded, so a write failure leaves the identifier
created and not sealed.  `write_table` itself stops at the first batch that cannot be read
or written. -/
theorem plasma_write_fail_fast (store : plasma_t σ) (ipc : ipc_t W B) (client : σ)
    (table : Table) (id : String) :
    List.Pairwise event_t.before
      (plasma_write store ipc (some client) (some table) (some id)).trace ∧
    (∀ e ∈ (plasma_write store ipc (some client) (some table) (some id)).trace, e.step ≤ 4) ∧
    (((table_size ipc table).1 = { err := some cstr_t.dangling, val := payload_t.null } ∧
        (plasma_write store ipc (some client) (some table) (some id)).res
          = { err := some cstr_t.dangling, val := payload_t.null } ∧
        (plasma_write store ipc (some client) (some table) (some id)).trace
          = (table_size ipc table).2) ∨
      (∃ size msg c1, (table_size ipc table).1 = { err := none, val := payload_t.i size } ∧
        store.Create client id size = (Status.error msg, c1) ∧
        (plasma_write store ipc (some client) (some table) (some id)).res
          = { err := some cstr_t.dangling, val := payload_t.null } ∧
        (plasma_write store ipc (some client) (some table) (some id)).trace
          = (table_size ipc table).2 ++ [event_t.create id size]) ∨
      (∃ size c1 msg, (table_size ipc table).1 = { err := none, val := payload_t.i size } ∧
        store.Create client id size = (Status.OK, c1) ∧
        ipc.Open sink_t.buffer table.schema = Except.error msg ∧
        (plasma_write store ipc (some client) (some table) (some id)).res
          = { err := some cstr_t.dangling, val := payload_t.null } ∧
        (plasma_write store ipc (some client) (some table) (some id)).trace
          = (table_size ipc table).2 ++
            [event_t.create id size, event_t.writer_open sink_t.buffer]) ∨
      (∃ size c1 w bytes msg w1 data tr,
        (table_size ipc table).1 = { err := none, val := payload_t.i size } ∧
        store.Create client id size = (Status.OK, c1) ∧
        ipc.Open sink_t.buffer table.schema = Except.ok (w, bytes) ∧
        write_table ipc sink_t.buffer FixedSizeBufferWriter_Write (ipc.batches table) w
          (FixedSizeBufferWriter_Write [] bytes) = (Status.error msg, w1, data, tr) ∧
        (plasma_write store ipc (some client) (some table) (some id)).res
          = { err := some cstr_t.dangling, val := payload_t.null } ∧
        (plasma_write store ipc (some client) (some table) (some id)).trace
          = (table_size ipc table).2 ++
            [event_t.create id size, event_t.writer_open sink_t.buffer] ++ tr) ∨
      (∃ size c1 w bytes w1 data tr msg c2,
        (table_size ipc table).1 = { err := none, val := payload_t.i size } ∧
        store.Create client id size = (Status.OK, c1) ∧
        ipc.Open sink_t.buffer table.schema = Except.ok (w, bytes) ∧
        write_table ipc sink_t.buffer FixedSizeBufferWriter_Write (ipc.batches table) w
          (FixedSizeBufferWriter_Write [] bytes) = (Status.OK, w1, data, tr) ∧
        store.Seal c1 id = (Status.error msg, c2) ∧
        (plasma_write store ipc (some client) (some table) (some id)).res
          = { err := some cstr_t.dangling, val := payload_t.null } ∧
        (plasma_write store ipc (some client) (some table) (some id)).trace
          = (table_size ipc table).2 ++
            [event_t.create id size, event_t.writer_open sink_t.buffer] ++ tr ++
            [event_t.seal id]) ∨
      (∃ size c1 w bytes w1 data tr c2,
        (table_size ipc table).1 = { err := none, val := payload_t.i size } ∧
        store.Create client id size = (Status.OK, c1) ∧
        ipc.Open sink_t.buffer table.schema = Except.ok (w, bytes) ∧
        write_table ipc sink_t.buffer FixedSizeBufferWriter_Write (ipc.batches table) w
          (FixedSizeBufferWriter_Write [] bytes) = (Status.OK, w1, data, tr) ∧
        store.Seal c1 id = (Status.OK, c2) ∧
        (plasma_write store ipc (some client) (some table) (some id)).res
          = { err := none, val := payload_t.i size } ∧
        (plasma_write store ipc (some client) (some table) (some id)).trace
          = (table_size ipc table).2 ++
            [event_t.create id size, event_t.writer_open sink_t.buffer] ++ tr ++
            [event_t.seal id] ∧
        (plasma_write store ipc (some client) (some table) (some id)).written = data)) ∧
    ((∃ x, event_t.seal x ∈
        (plasma_write store ipc (some client) (some table) (some id)).trace) ↔
      ∃ size c1 w bytes w1 data tr,
        (table_size ipc table).1 = { err := none, val := payload_t.i size } ∧
        store.Create client id size = (Status.OK, c1) ∧
        ipc.Open sink_t.buffer table.schema = Except.ok (w, bytes) ∧
        write_table ipc sink_t.buffer FixedSizeBufferWriter_Write (ipc.batches table) w
          (FixedSizeBufferWriter_Write [] bytes) = (Status.OK, w1, data, tr)) ∧
    (∀ (S : Type) (sink : sink_t) (Write : S → List Nat → S)
        (pre post : List (Except String B)) (msg : String) (w w1 : W) (s s1 : S)
        (tr : List event_t),
      write_table ipc sink Write pre w s = (Status.OK, w1, s1, tr) →
      write_table ipc sink Write (pre ++ Except.error msg :: post) w s
        = (Status.error msg, w1, s1, tr)) ∧
    (∀ (S : Type) (sink : sink_t) (Write : S → List Nat → S)
        (pre post : List (Except String B)) (batch : B) (msg : String) (w w1 : W) (s s1 : S)
        (tr : List event_t),
      write_table ipc sink Write pre w s = (Status.OK, w1, s1, tr) →
      ipc.WriteRecordBatch w1 batch = Except.error msg →
      write_table ipc sink Write (pre ++ Except.ok batch :: post) w s
        = (Status.error msg, w1, s1, tr ++ [event_t.write_record_batch sink])) := by
  refine ⟨?_, ?_, plasma_write_cases store ipc client table id, ?_, ?_, ?_⟩
  · obtain ⟨size, tr, more, htr, -, hsub⟩ := plasma_write_trace_shape store ipc client table id
    exact (write_path_before _ tr id size (table_size_trace ipc table) htr).sublist hsub
  · obtain ⟨size, tr, more, htr, -, hsub⟩ := plasma_write_trace_shape store ipc client table id
    intro e he
    exact write_path_step_le _ tr id size (table_size_trace ipc table) htr e (hsub.subset he)
  · have hp0 := table_size_trace ipc table
    constructor
    · rintro ⟨x, hx⟩
      rcases plasma_write_cases store ipc client table id with
        ⟨-, -, ht⟩ | ⟨size, msg, c1, -, -, -, ht⟩ | ⟨size, c1, msg, -, -, -, -, ht⟩ |
        ⟨size, c1, w, bytes, msg, w1, data, tr, -, -, -, hw, -, ht⟩ |
        ⟨size, c1, w, bytes, w1, data, tr, msg, c2, hp, hc, ho, hw, -, -, ht⟩ |
        ⟨size, c1, w, bytes, w1, data, tr, c2, hp, hc, ho, hw, -, -, ht, -⟩
      · rw [ht] at hx
        exact absurd (by simpa using hx) (no_seal_before _ [] [] x hp0 (by simp) (by simp))
      · rw [ht] at hx
        exact absurd (by simpa using hx)
          (no_seal_before _ [] [event_t.create id size] x hp0 (by simp)
            (by simp [event_t.step]))
      · rw [ht] at hx
        exact absurd (by simpa using hx)
          (no_seal_before _ []
            [event_t.create id size, event_t.writer_open sink_t.buffer] x hp0 (by simp)
            (by simp [event_t.step]))
      · have htr := write_table_trace ipc sink_t.buffer FixedSizeBufferWriter_Write
          (ipc.batches table) w (FixedSizeBufferWriter_Write [] bytes)
        rw [hw] at htr
        rw [ht] at hx
        exact absurd hx
          (no_seal_before _ tr
            [event_t.create id size, event_t.writer_open sink_t.buffer] x hp0 htr
            (by simp [event_t.step]))
      · exact ⟨size, c1, w, bytes, w1, data, tr, hp, hc, ho, hw⟩
      · exact ⟨size, c1, w, bytes, w1, data, tr, hp, hc, ho, hw⟩
    · rintro ⟨size, c1, w, bytes, w1, data, tr, hp, hc, ho, hw⟩
      obtain ⟨-, hrun⟩ := plasma_write_run store ipc client table id
      obtain ⟨-, -, hseal⟩ := ((hrun size hp).2 c1 hc).2 w bytes Status.OK w1 data tr ho hw
      obtain ⟨hsfail, hsok⟩ := hseal rfl
      refine ⟨id, ?_⟩
      rcases hs : store.Seal c1 id with ⟨ss, c2⟩
      cases ss with
      | error msg => rw [(hsfail msg c2 hs).2]; simp
      | OK => rw [(hsok c2 hs).2]; simp
  · intro S sink Write pre post msg w w1 s s1 tr h
    exact write_table_stops_at_read ipc sink Write pre post msg w s w1 s1 tr h
  · intro S sink Write pre post batch msg w w1 s s1 tr h hb
    exact write_table_stops_at_write ipc sink Write pre post batch msg w s w1 s1 tr h hb

/-- C7: the steps of `plasma_write` run in order and stop at the first failure, but the error
it returns does not carry the message of the failed step.  On a write under an identifier
that the store holds already, `Create` fails with the message "object already exists"; on a
write whose batch the buffer refuses, the writer fails with "buffer is full".  In both runs
`err` is not null and points at the destroyed string of the message, not at its text; no
value is returned, no later step runs and nothing is sealed (in the second run the
identifier is created). -/
theorem plasma_write_error_message_lost :
    list_store.Create ["0000000000000000obj1"] "0000000000000000obj1" 92
      = (Status.error "object already exists", ["0000000000000000obj1"]) ∧
    (plasma_write list_store marker_codec (some ["0000000000000000obj1"]) (some build_table)
        (some "0000000000000000obj1")).res
      = { err := some cstr_t.dangling, val := payload_t.null } ∧
    (plasma_write list_store marker_codec (some ["0000000000000000obj1"]) (some build_table)
        (some "0000000000000000obj1")).res.err ≠ some "object already exists" ∧
    (plasma_write list_store marker_codec (some ["0000000000000000obj1"]) (some build_table)
        (some "0000000000000000obj1")).trace
      = [event_t.writer_open sink_t.mock, event_t.write_record_batch sink_t.mock,
         event_t.writer_close sink_t.mock, event_t.create "0000000000000000obj1" 92] ∧
    full_buffer_codec.WriteRecordBatch sink_t.buffer build_table
      = Except.error "buffer is full" ∧
    (plasma_write list_store full_buffer_codec (some []) (some build_table)
        (some "0000000000000000obj1")).res
      = { err := some cstr_t.dangling, val := payload_t.null } ∧
    (plasma_write list_store full_buffer_codec (some []) (some build_table)
        (some "0000000000000000obj1")).res.err ≠ some "buffer is full" ∧
    (plasma_write list_store full_buffer_codec (some []) (some build_table)
        (some "0000000000000000obj1")).trace
      = [event_t.writer_open sink_t.mock, event_t.write_record_batch sink_t.mock,
         event_t.writer_close sink_t.mock, event_t.create "0000000000000000obj1" 92,
         event_t.writer_open sink_t.buffer, event_t.write_record_batch sink_t.buffer] ∧
    (plasma_write list_store full_buffer_codec (some []) (some build_table)
        (some "0000000000000000obj1")).client = some ["0000000000000000obj1"] := by
  refine ⟨by decide, by decide, by decide, by decide, rfl, by decide, by decide,
    by decide, by decide⟩

/-- No run of `plasma_write` closes the writer it opened on the buffer. -/
theorem plasma_write_never_closes (store : plasma_t σ) (ipc : ipc_t W B)
    (cp : Option σ) (tp : Option Table) (oid : Option String) :
    event_t.writer_close sink_t.buffer ∉ (plasma_write store ipc cp tp oid).trace := by
  cases cp with
  | none => simp [plasma_write]
  | some client =>
    cases tp with
    | none => simp [plasma_write]
    | some table =>
      cases oid with
      | none => simp [plasma_write]
      | some id =>
        obtain ⟨size, tr, more, htr, -, hsub⟩ :=
          plasma_write_trace_shape store ipc client table id
        intro h
        have h2 := hsub.subset h
        simp only [List.mem_append, List.mem_cons, List.mem_singleton, List.not_mem_nil,
          or_false] at h2
        rcases h2 with ((h2 | h2 | h2) | h2) | h2
        · have := table_size_trace ipc table _ h2
          simp [event_t.step] at this
        · simp at h2
        · simp at h2
        · have := htr _ h2; simp at this
        · simp at h2

/-- With a writer that behaves alike on both sinks, the byte count of the probe of a
successful `plasma_write` is the number of bytes written into the buffer plus the number of
bytes the probe's `Close` sent. -/
theorem size_probe_exceeds_written (store : plasma_t σ) (ipc : ipc_t W B) (client : σ)
    (table : Table) (id : String)
    (hsink : ipc.Open sink_t.mock table.schema = ipc.Open sink_t.buffer table.schema)
    (hok : (plasma_write store ipc (some client) (some table) (some id)).res.err = none) :
    ∃ size w1 w2 last,
      (table_size ipc table).1 = { err := none, val := payload_t.i size } ∧
      ipc.Close w1 = Except.ok (w2, last) ∧
      size = ((plasma_write store ipc (some client) (some table) (some id)).written.length
        : Int) + last.length := by
  rcases plasma_write_cases store ipc client table id with
    ⟨-, hr, -⟩ | ⟨size, msg, c1, -, -, hr, -⟩ | ⟨size, c1, msg, -, -, -, hr, -⟩ |
    ⟨size, c1, w, bytes, msg, w1, data, tr, -, -, -, -, hr, -⟩ |
    ⟨size, c1, w, bytes, w1, data, tr, msg, c2, -, -, -, -, -, hr, -⟩ |
    ⟨size, c1, w, bytes, w1, data, tr, c2, hp, -, ho, hw, -, -, -, hd⟩
  · rw [hr] at hok; simp at hok
  · rw [hr] at hok; simp at hok
  · rw [hr] at hok; simp at hok
  · rw [hr] at hok; simp at hok
  · rw [hr] at hok; simp at hok
  · obtain ⟨h1, h2, h3⟩ := write_table_mock_buffer ipc (ipc.batches table) w
      (MockOutputStream_Write 0 bytes) (FixedSizeBufferWriter_Write [] bytes)
    rw [hw] at h1 h2 h3
    have hp2 := hp
    unfold table_size at hp2
    rw [hsink, ho] at hp2
    simp only at hp2
    rcases hm : write_table ipc sink_t.mock MockOutputStream_Write (ipc.batches table) w
      (MockOutputStream_Write 0 bytes) with ⟨st, wm, extent, trm⟩
    rw [hm] at hp2 h1 h2 h3
    simp only at h1 h2 h3
    subst h1 h2
    simp only at hp2
    cases hcl : ipc.Close wm with
    | error msg => rw [hcl] at hp2; simp [new_result, RETURN_IF_ERROR] at hp2
    | ok r =>
      obtain ⟨w2, last⟩ := r
      rw [hcl] at hp2
      simp only [result_t.mk.injEq, payload_t.i.injEq, true_and] at hp2
      refine ⟨size, wm, w2, last, hp, hcl, ?_⟩
      rw [hd, ← hp2]
      simp only [MockOutputStream_Write, FixedSizeBufferWriter_Write, List.nil_append,
        zero_add] at h3 ⊢
      omega

theorem size_probe_exceeds_written_witness :
    marker_codec.Open sink_t.mock build_table.schema
      = marker_codec.Open sink_t.buffer build_table.schema ∧
    (plasma_write list_store marker_codec (some []) (some build_table)
      (some "0000000000000000obj1")).res.err = none ∧
    ∃ size w1 w2 last,
      (table_size marker_codec build_table).1 = { err := none, val := payload_t.i size } ∧
      marker_codec.Close w1 = Except.ok (w2, last) ∧
      size = ((plasma_write list_store marker_codec (some []) (some build_table)
        (some "0000000000000000obj1")).written.length : Int) + last.length :=
  ⟨rfl, by decide, size_probe_exceeds_written list_store marker_codec [] build_table
    "0000000000000000obj1" rfl (by decide)⟩

/-- C2, the code at a failing input: for the ten-row table of `build_table` and a writer whose
`Close` sends the four-byte end-of-stream marker, the probe counts 92 bytes, `plasma_write`
succeeds, asks the store for 92 bytes and returns 92, and writes 88 bytes into the buffer:
its real pass never closes the writer, as the probe does. -/
theorem size_probe_counts_unwritten_close :
    (table_size marker_codec build_table).1 = { err := none, val := payload_t.i 92 } ∧
    event_t.writer_close sink_t.mock ∈ (table_size marker_codec build_table).2 ∧
    (plasma_write list_store marker_codec (some []) (some build_table)
        (some "0000000000000000obj1")).res = { err := none, val := payload_t.i 92 } ∧
    event_t.create "0000000000000000obj1" 92 ∈
      (plasma_write list_store marker_codec (some []) (some build_table)
        (some "0000000000000000obj1")).trace ∧
    event_t.writer_close sink_t.buffer ∉
      (plasma_write list_store marker_codec (some []) (some build_table)
        (some "0000000000000000obj1")).trace ∧
    (plasma_write list_store marker_codec (some []) (some build_table)
        (some "0000000000000000obj1")).written.length = 88 := by
  refine ⟨by decide, by decide, by decide, by decide, by decide, by decide⟩

/-! ## The sibling write path writes what its probe counted -/

theorem misc_table_size_nonneg_cases (ipc : ipc_t W B) (table : Table) :
    (misc_table_size ipc table).1 = -1 ∨
    ∃ w bytes w1 stream tr w2 last,
      ipc.Open sink_t.mock table.schema = Except.ok (w, bytes) ∧
      write_table ipc sink_t.mock MockOutputStream_Write (ipc.batches table) w
        (MockOutputStream_Write 0 bytes) = (Status.OK, w1, stream, tr) ∧
      ipc.Close w1 = Except.ok (w2, last) ∧
      (misc_table_size ipc table).1 = MockOutputStream_Write stream last := by
  unfold misc_table_size misc_write_table
  cases ho : ipc.Open sink_t.mock table.schema with
  | error msg => exact Or.inl rfl
  | ok r =>
    obtain ⟨w, bytes⟩ := r
    simp only
    rcases hw : write_table ipc sink_t.mock MockOutputStream_Write (ipc.batches table) w
      (MockOutputStream_Write 0 bytes) with ⟨st, w1, stream, tr⟩
    cases st with
    | error msg => exact Or.inl (by simp)
    | OK =>
      simp only [decide_True]
      cases hc : ipc.Close w1 with
      | error msg => exact Or.inl rfl
      | ok r2 =>
        obtain ⟨w2, last⟩ := r2
        exact Or.inr ⟨w, bytes, w1, stream, tr, w2, last, rfl, hw, hc, rfl⟩

/-- The sibling of `plasma_write`, `main` of `_misc/plasma.cc`, closes the writer before it
seals: with a writer that behaves alike on both sinks, a run that ends with "OK" has written
into the buffer exactly the number of bytes its probe counted. -/
theorem misc_main_write_writes_probed_size (store : plasma_t σ) (ipc : ipc_t W B) (client : σ)
    (table : Table) (oid : String)
    (hsink : ipc.Open sink_t.mock table.schema = ipc.Open sink_t.buffer table.schema)
    (hok : (misc_main_write store ipc client table oid).1 = 0) :
    ((misc_main_write store ipc client table oid).2.1.length : Int)
      = (misc_table_size ipc table).1 := by
  rcases misc_table_size_nonneg_cases ipc table with h | ⟨w, bytes, w1, stream, tr, w2, last,
    ho, hw, hc, hs⟩
  · simp [misc_main_write, h] at hok
  · obtain ⟨h1, h2, h3⟩ := write_table_mock_buffer ipc (ipc.batches table) w
      (MockOutputStream_Write 0 bytes) (FixedSizeBufferWriter_Write [] bytes)
    rw [hw] at h1 h2 h3
    rw [hsink] at ho
    rcases hb : write_table ipc sink_t.buffer FixedSizeBufferWriter_Write (ipc.batches table) w
      (FixedSizeBufferWriter_Write [] bytes) with ⟨st, wb, data, trb⟩
    rw [hb] at h1 h2 h3
    simp only at h1 h2 h3
    subst h1 h2
    by_cases hneg : (misc_table_size ipc table).1 = -1
    · simp [misc_main_write, hneg] at hok
    · rcases hcr : store.Create client oid (misc_table_size ipc table).1 with ⟨sc, c1⟩
      cases sc with
      | error msg => simp [misc_main_write, hneg, hcr] at hok
      | OK =>
        rcases hse : store.Seal c1 oid with ⟨ss, c2⟩
        cases ss with
        | error msg =>
          simp [misc_main_write, misc_write_table, hneg, hcr, ho, hb, hc, hse] at hok
        | OK =>
          simp only [misc_main_write, misc_write_table, hneg, hcr, ho, hb, hc, hse, if_false,
            decide_True]
          rw [hs]
          simp only [MockOutputStream_Write, FixedSizeBufferWriter_Write, List.nil_append,
            zero_add, List.length_append, Nat.cast_add] at h3 ⊢
          omega

theorem misc_main_write_writes_probed_size_witness :
    marker_codec.Open sink_t.mock build_table.schema
      = marker_codec.Open sink_t.buffer build_table.schema ∧
    (misc_main_write list_store marker_codec [] build_table "0000000000000000obj1").1 = 0 ∧
    ((misc_main_write list_store marker_codec [] build_table
        "0000000000000000obj1").2.1.length : Int)
      = (misc_table_size marker_codec build_table).1 :=
  ⟨rfl, by decide, misc_main_write_writes_probed_size list_store marker_codec [] build_table
    "0000000000000000obj1" rfl (by decide)⟩

/-! ## The chunk walk is total and one-to-one, the claims -/

/-- The chunk walk finds an element where it lies: at the sum of the lengths of the chunks
before chunk `p`, plus `k`, the loop returns position `p` and offset `k`. -/
theorem find_chunk_loop_at (chunks : List ArrayData) :
    ∀ (p : Nat) (chunk : ArrayData) (c : Nat) (k : Int), chunks[p]? = some chunk → 0 ≤ k →
      k < chunk.length →
      find_chunk_loop chunks c (chunks_length (chunks.take p) + k) = (some (c + p), k) := by
  induction chunks with
  | nil => intro p chunk c k hp; simp at hp
  | cons hd rest ih =>
    intro p chunk c k hp h0 h1
    cases p with
    | zero =>
      simp at hp; subst hp
      simp [find_chunk_loop, chunks_length, h1]
    | succ p =>
      simp at hp
      have hn := chunks_length_nonneg (rest.take p)
      have hl := hd.length_nonneg
      have hnot : ¬ (hd.length + chunks_length (List.take p rest) + k < hd.length) := by omega
      simp only [List.take_succ_cons, chunks_length, find_chunk_loop, hnot, if_false]
      rw [show hd.length + chunks_length (List.take p rest) + k - hd.length
          = chunks_length (List.take p rest) + k by omega,
        ih p chunk (c + 1) k hp h0 h1, show c + 1 + p = c + (p + 1) by omega]

theorem chunks_length_take_add_le (chunks : List ArrayData) :
    ∀ (p : Nat) (chunk : ArrayData), chunks[p]? = some chunk →
      chunks_length (chunks.take p) + chunk.length ≤ chunks_length chunks := by
  induction chunks with
  | nil => intro p chunk hp; simp at hp
  | cons hd rest ih =>
    intro p chunk hp
    cases p with
    | zero =>
      simp at hp; subst hp
      have := chunks_length_nonneg rest
      simp only [List.take_zero, chunks_length]; omega
    | succ p =>
      simp at hp
      have := ih p chunk hp
      simp only [List.take_succ_cons, chunks_length]; omega

theorem chunks_length_take_lt (chunks : List ArrayData) :
    ∀ (p q : Nat) (chunk : ArrayData), chunks[p]? = some chunk → p < q →
      chunks_length (chunks.take p) + chunk.length ≤ chunks_length (chunks.take q) := by
  induction chunks with
  | nil => intro p q chunk hp; simp at hp
  | cons hd rest ih =>
    intro p q chunk hp hpq
    cases q with
    | zero => omega
    | succ q =>
      cases p with
      | zero =>
        simp at hp; subst hp
        have := chunks_length_nonneg (rest.take q)
        simp only [List.take_zero, List.take_succ_cons, chunks_length]; omega
      | succ p =>
        simp at hp
        have := ih p q chunk hp (by omega)
        simp only [List.take_succ_cons, chunks_length]; omega

/-- C18: the internal-invariant error of the chunk walk is unreachable.  For a non-null
column whose length is the sum of its chunk lengths, the column's own type and an index
`0 ≤ i < length`, the loop of `find_chunk` stops at a chunk before the chunks are exhausted,
and `find_chunk` returns no error, so never the error "can't get here". -/
theorem find_chunk_walk_never_exhausted (column : Column) (i : Int)
    (hlen : column.length = chunks_length column.chunks)
    (h0 : 0 ≤ i) (h1 : i < column.length) :
    (find_chunk_loop column.chunks 0 i).1 ≠ none ∧
    (find_chunk (some column) i column.type_id).error = none ∧
    (find_chunk (some column) i column.type_id).error ≠ some "can't get here" := by
  obtain ⟨p, chunk, -, hl, -, -⟩ :=
    find_chunk_loop_spec column.chunks 0 i h0 (by rw [← hlen]; exact h1)
  obtain ⟨c, ck, -, hf, -, -⟩ := find_chunk_in_range column i hlen h0 h1
  refine ⟨by rw [hl]; simp, by rw [hf], by rw [hf]; simp⟩

theorem find_chunk_walk_never_exhausted_witness :
    chunked_column.length = chunks_length chunked_column.chunks ∧
    (0 : Int) ≤ 9 ∧ (9 : Int) < chunked_column.length ∧
    (find_chunk_loop chunked_column.chunks 0 9).1 ≠ none ∧
    (find_chunk (some chunked_column) 9 chunked_column.type_id).error = none ∧
    (find_chunk (some chunked_column) 9 chunked_column.type_id).error
      ≠ some "can't get here" :=
  ⟨by decide, by decide, by decide,
    find_chunk_walk_never_exhausted chunked_column 9 (by decide) (by decide) (by decide)⟩

/-- On a column whose stored length is larger than the sum of its chunk lengths the error
"can't get here" is reached, so the hypothesis on the length is needed. -/
theorem find_chunk_exhausted_example :
    find_chunk (some overlong_column) 3 INTEGER64_DTYPE
      = { chunk := none, offset := 1, error := some "can't get here" } := by
  decide

/-- What the walk returns determines the index: the offset is the index less the lengths of
the chunks before the position. -/
theorem find_chunk_loop_inv (chunks : List ArrayData) (i : Int) (c : Nat) (k : Int)
    (h0 : 0 ≤ i) (h1 : i < chunks_length chunks)
    (h : find_chunk_loop chunks 0 i = (some c, k)) :
    ∃ chunk, chunks[c]? = some chunk ∧ i = chunks_length (chunks.take c) + k ∧ 0 ≤ k ∧
      k < chunk.length := by
  obtain ⟨p, chunk, hp, hl, hlo, hhi⟩ := find_chunk_loop_spec chunks 0 i h0 h1
  rw [hl] at h
  simp only [zero_add, Prod.mk.injEq, Option.some.injEq] at h
  obtain ⟨rfl, rfl⟩ := h
  exact ⟨chunk, hp, by omega, hlo, hhi⟩

/-- C19: for every list of chunks (zero-length chunks included), the map from an index
`0 ≤ i < length` to the chunk position and local offset the walk of `find_chunk` computes is
a bijection onto the pairs `(c, k)` with `0 ≤ k < length(chunk c)`, strictly increasing in
the lexicographic order: every index resolves to such a pair, of a chunk that is not empty;
distinct indices resolve to distinct pairs; every pair is reached by an index; and a larger
index resolves to a later chunk or to a larger offset in the same chunk.  On a column whose
length is the sum of its chunk lengths `find_chunk` returns that chunk and offset. -/
theorem find_chunk_loop_bijective (chunks : List ArrayData) :
    (∀ i : Int, 0 ≤ i → i < chunks_length chunks →
      ∃ c chunk k, chunks[c]? = some chunk ∧ find_chunk_loop chunks 0 i = (some c, k) ∧
        0 ≤ k ∧ k < chunk.length ∧ 0 < chunk.length) ∧
    (∀ i j : Int, 0 ≤ i → i < chunks_length chunks → 0 ≤ j → j < chunks_length chunks →
      find_chunk_loop chunks 0 i = find_chunk_loop chunks 0 j → i = j) ∧
    (∀ (c : Nat) (chunk : ArrayData) (k : Int), chunks[c]? = some chunk → 0 ≤ k →
      k < chunk.length →
      ∃ i : Int, 0 ≤ i ∧ i < chunks_length chunks ∧
        find_chunk_loop chunks 0 i = (some c, k) ∧
        ∀ j : Int, 0 ≤ j → j < chunks_length chunks →
          find_chunk_loop chunks 0 j = (some c, k) → j = i) ∧
    (∀ (i j : Int) (c d : Nat) (k l : Int), 0 ≤ i → i < j → j < chunks_length chunks →
      find_chunk_loop chunks 0 i = (some c, k) → find_chunk_loop chunks 0 j = (some d, l) →
      c < d ∨ (c = d ∧ k < l)) ∧
    (∀ (column : Column) (i : Int), column.chunks = chunks →
      column.length = chunks_length chunks → 0 ≤ i → i < column.length →
      find_chunk (some column) i column.type_id
        = { chunk := chunks[((find_chunk_loop chunks 0 i).1.getD 0)]?,
            offset := (find_chunk_loop chunks 0 i).2, error := none }) := by
  refine ⟨?_, ?_, ?_, ?_, ?_⟩
  · intro i h0 h1
    obtain ⟨p, chunk, hp, hl, hlo, hhi⟩ := find_chunk_loop_spec chunks 0 i h0 h1
    exact ⟨p, chunk, _, hp, by rw [hl, zero_add], hlo, hhi, by omega⟩
  · intro i j hi0 hi1 hj0 hj1 h
    obtain ⟨p, chunk, hp, hl, -, -⟩ := find_chunk_loop_spec chunks 0 i hi0 hi1
    rw [hl] at h
    obtain ⟨-, -, hi, -, -⟩ := find_chunk_loop_inv chunks i _ _ hi0 hi1 hl
    obtain ⟨-, -, hj, -, -⟩ := find_chunk_loop_inv chunks j _ _ hj0 hj1 h.symm
    omega
  · intro c chunk k hc h0 h1
    have hat := find_chunk_loop_at chunks c chunk 0 k hc h0 h1
    rw [zero_add] at hat
    have hn := chunks_length_nonneg (chunks.take c)
    have hle := chunks_length_take_add_le chunks c chunk hc
    refine ⟨chunks_length (chunks.take c) + k, by omega, by omega, hat, ?_⟩
    intro j hj0 hj1 hj
    obtain ⟨-, -, hj', -, -⟩ := find_chunk_loop_inv chunks j c k hj0 hj1 hj
    exact hj'
  · intro i j c d k l hi0 hij hj1 hi hj
    obtain ⟨ci, hci, hie, hk0, hk1⟩ := find_chunk_loop_inv chunks i c k hi0 (by omega) hi
    obtain ⟨cj, hcj, hje, hl0, hl1⟩ := find_chunk_loop_inv chunks j d l (by omega) hj1 hj
    rcases Nat.lt_trichotomy c d with h | h | h
    · exact Or.inl h
    · subst h
      exact Or.inr ⟨rfl, by omega⟩
    · have := chunks_length_take_lt chunks d c cj hcj h
      omega
  · intro column i hch hlen h0 h1
    subst hch
    obtain ⟨p, chunk, hp, hl, -, -⟩ :=
      find_chunk_loop_spec column.chunks 0 i h0 (by rw [← hlen]; exact h1)
    simp [find_chunk, not_lt.mpr h0, not_le.mpr h1, hl]

/-- The bijection on chunks of lengths 3, 0, 5 and 2: the ten indices resolve to ten distinct
pairs, none in the empty chunk at position 1. -/
theorem find_chunk_loop_bijective_example :
    ((List.range 10).map (fun i => find_chunk_loop chunked_column.chunks 0 i)).Nodup ∧
    (∀ r ∈ (List.range 10).map (fun i => find_chunk_loop chunked_column.chunks 0 i),
      r.1 ≠ some 1) ∧
    find_chunk_loop chunked_column.chunks 0 7 = (some 2, 4) := by
  refine ⟨by decide, by decide, by decide⟩

/-! ## Slicing commutes with random access -/

theorem chunks_cells_length (chunks : List ArrayData) :
    ((chunks_cells chunks).length : Int) = chunks_length chunks := by
  induction chunks with
  | nil => simp [chunks_cells, chunks_length]
  | cons hd rest ih =>
    have := hd.cells_length
    simp only [chunks_cells, chunks_length, List.length_append, Nat.cast_add]; omega

theorem ArrayData.cells_Slice (chunk : ArrayData) (offset length : Int) :
    (chunk.Slice offset length).cells = (chunk.cells.drop offset.toNat).take length.toNat := by
  cases chunk <;> simp [ArrayData.Slice, ArrayData.cells, List.map_take, List.map_drop]

theorem ArrayData.type_id_Slice (chunk : ArrayData) (offset length : Int) :
    (chunk.Slice offset length).type_id = chunk.type_id := by
  cases chunk <;> rfl

theorem ChunkedArray_Slice_skip_spec (chunks : List ArrayData) :
    ∀ offset : Int, 0 ≤ offset →
      0 ≤ (ChunkedArray_Slice_skip chunks offset).2 ∧
      (chunks_cells (ChunkedArray_Slice_skip chunks offset).1).drop
          (ChunkedArray_Slice_skip chunks offset).2.toNat
        = (chunks_cells chunks).drop offset.toNat ∧
      (∀ c ∈ (ChunkedArray_Slice_skip chunks offset).1, c ∈ chunks) ∧
      (∀ hd ∈ (ChunkedArray_Slice_skip chunks offset).1.head?,
        (ChunkedArray_Slice_skip chunks offset).2 < hd.length) := by
  induction chunks with
  | nil => intro offset h0; simp [ChunkedArray_Slice_skip, h0]
  | cons hd rest ih =>
    intro offset h0
    have hl := hd.cells_length
    have hn := hd.length_nonneg
    have e : chunks_cells (hd :: rest) = hd.cells ++ chunks_cells rest := rfl
    by_cases h : offset ≥ hd.length
    · have hs : ChunkedArray_Slice_skip (hd :: rest) offset
          = ChunkedArray_Slice_skip rest (offset - hd.length) := by
        simp [ChunkedArray_Slice_skip, h]
      obtain ⟨h1, h2, h3, h4⟩ := ih (offset - hd.length) (by omega)
      rw [hs]
      refine ⟨h1, ?_, fun c hc => List.mem_cons_of_mem _ (h3 c hc), h4⟩
      rw [h2, e, List.drop_append_eq_append_drop,
        List.drop_of_length_le (show hd.cells.length ≤ offset.toNat by omega), List.nil_append]
      congr 1; omega
    · have hs : ChunkedArray_Slice_skip (hd :: rest) offset = (hd :: rest, offset) := by
        simp [ChunkedArray_Slice_skip, h]
      rw [hs]
      refine ⟨h0, rfl, fun c hc => hc, ?_⟩
      intro x hx
      simp at hx; subst hx; omega

theorem ChunkedArray_Slice_take_spec (chunks : List ArrayData) :
    ∀ offset length : Int, 0 ≤ offset → (∀ hd ∈ chunks.head?, offset ≤ hd.length) →
      chunks_cells (ChunkedArray_Slice_take chunks offset length)
        = ((chunks_cells chunks).drop offset.toNat).take length.toNat ∧
      (∀ c ∈ ChunkedArray_Slice_take chunks offset length,
        ∃ c0 ∈ chunks, c.type_id = c0.type_id) := by
  induction chunks with
  | nil => intro offset length h0 hh; simp [ChunkedArray_Slice_take, chunks_cells]
  | cons hd rest ih =>
    intro offset length h0 hh
    have hl := hd.cells_length
    have ho : offset ≤ hd.length := hh hd (by simp)
    have e : chunks_cells (hd :: rest) = hd.cells ++ chunks_cells rest := rfl
    by_cases h : length > 0
    · have hs : ChunkedArray_Slice_take (hd :: rest) offset length
          = hd.Slice offset length ::
            ChunkedArray_Slice_take rest 0 (length - (hd.length - offset)) := by
        simp [ChunkedArray_Slice_take, h]
      obtain ⟨h1, h2⟩ := ih 0 (length - (hd.length - offset)) (le_refl _)
        (fun x _ => x.length_nonneg)
      rw [hs]
      refine ⟨?_, ?_⟩
      · have e2 : chunks_cells (hd.Slice offset length ::
            ChunkedArray_Slice_take rest 0 (length - (hd.length - offset)))
            = (hd.Slice offset length).cells ++
              chunks_cells (ChunkedArray_Slice_take rest 0 (length - (hd.length - offset))) :=
          rfl
        rw [e2, h1, ArrayData.cells_Slice, e, List.drop_append_eq_append_drop,
          List.take_append_eq_append_take]
        simp only [Int.toNat_zero, List.drop_zero, List.length_drop]
        rw [show offset.toNat - hd.cells.length = 0 by omega, List.drop_zero,
          show (length - (hd.length - offset)).toNat
            = length.toNat - (hd.cells.length - offset.toNat) by omega]
      · intro c hc
        simp only [List.mem_cons] at hc
        rcases hc with rfl | hc
        · exact ⟨hd, by simp, ArrayData.type_id_Slice _ _ _⟩
        · obtain ⟨c0, hc0, ht⟩ := h2 c hc
          exact ⟨c0, List.mem_cons_of_mem _ hc0, ht⟩
    · have hs : ChunkedArray_Slice_take (hd :: rest) offset length = [] := by
        simp [ChunkedArray_Slice_take, h]
      rw [hs]
      refine ⟨?_, by simp⟩
      rw [show length.toNat = 0 by omega]
      simp [chunks_cells]

/-- The slice of the Arrow library covers the rows from `offset` on, `length` of them. -/
theorem ChunkedArray_Slice_cells (chunks : List ArrayData) (offset length : Int)
    (h0 : 0 ≤ offset) :
    chunks_cells (ChunkedArray_Slice chunks offset length)
      = ((chunks_cells chunks).drop offset.toNat).take length.toNat ∧
    (∀ c ∈ ChunkedArray_Slice chunks offset length, ∃ c0 ∈ chunks, c.type_id = c0.type_id) := by
  obtain ⟨h1, h2, h3, h4⟩ := ChunkedArray_Slice_skip_spec chunks offset h0
  obtain ⟨h5, h6⟩ := ChunkedArray_Slice_take_spec (ChunkedArray_Slice_skip chunks offset).1
    (ChunkedArray_Slice_skip chunks offset).2 length h1 (fun hd hhd => le_of_lt (h4 hd hhd))
  refine ⟨?_, ?_⟩
  · simp only [ChunkedArray_Slice]
    rw [h5, h2]
  · intro c hc
    obtain ⟨c0, hc0, ht⟩ := h6 c hc
    exact ⟨c0, h3 c0 hc0, ht⟩

/-- The value a typed accessor of the column's type returns at an in-range index: the element
of the concatenation of the chunks at that index, as the accessor hands it over. -/
theorem typed_accessor_value (column : Column) (i : Int)
    (hlen : column.length = chunks_length column.chunks)
    (htypes : ∀ chunk ∈ column.chunks, chunk.type_id = column.type_id)
    (h0 : 0 ≤ i) (h1 : i < column.length)
    (a : (Option Column → Int → result_t) × Int) (ha : a ∈ typed_accessors)
    (ht : column.type_id = a.2) :
    ∃ v, (chunks_cells column.chunks)[i.toNat]? = some v ∧
      a.1 (some column) i = { err := none, val := v.returned } := by
  obtain ⟨chunk, k, hf, hmem, hk0, hk1, hcell⟩ := find_chunk_cell column i hlen h0 h1
  have hty := htypes chunk hmem
  rw [ht] at hf hty
  obtain ⟨v, hv, hres, -⟩ := typed_accessor_cell a ha (some column) i chunk k hf hty hk0 hk1
  exact ⟨v, hcell.trans hv, hres⟩

/-- C11: slicing commutes with random access.  For a column `c` (its length the sum of its
chunk lengths, its chunks of its type, chunked in any way), `offset ≥ 0` and `length ≥ 0`
with `offset + length ≤ length(c)`, `column_slice` over the `Slice` of the Arrow library
returns a column `s` with `length(s) = length`, and every typed accessor gives at every
`0 ≤ k < length` the same result on `s` at `k` as on `c` at `offset + k`. -/
theorem column_slice_commutes_with_access (column : Column) (offset length : Int)
    (hlen : column.length = chunks_length column.chunks)
    (htypes : ∀ chunk ∈ column.chunks, chunk.type_id = column.type_id)
    (ho : 0 ≤ offset) (hl : 0 ≤ length) (hle : offset + length ≤ column.length) :
    ∃ s, column_slice Column_Slice (some column) offset length
        = { err := none, val := payload_t.ptr (object_t.column s) } ∧
      s.length = length ∧ s.length = chunks_length s.chunks ∧ s.field = column.field ∧
      (∀ chunk ∈ s.chunks, chunk.type_id = s.type_id) ∧
      ∀ k : Int, 0 ≤ k → k < length → ∀ a ∈ typed_accessors,
        a.1 (some s) k = a.1 (some column) (offset + k) := by
  obtain ⟨hcells, hty⟩ := ChunkedArray_Slice_cells column.chunks offset length ho
  have htot := chunks_cells_length column.chunks
  have hslen : chunks_length (ChunkedArray_Slice column.chunks offset length) = length := by
    rw [← chunks_cells_length, hcells, List.length_take, List.length_drop]
    omega
  obtain ⟨s, hs⟩ : ∃ s : Column, s =
      { field := column.field,
        chunks := ChunkedArray_Slice column.chunks offset length,
        length := chunks_length (ChunkedArray_Slice column.chunks offset length) } :=
    ⟨_, rfl⟩
  have hstypes : ∀ chunk ∈ s.chunks, chunk.type_id = s.type_id := by
    intro chunk hc
    rw [hs] at hc
    obtain ⟨c0, hc0, ht⟩ := hty chunk hc
    rw [ht, htypes c0 hc0, hs]; rfl
  have hsid : s.type_id = column.type_id := by rw [hs]; rfl
  refine ⟨s, by simp [column_slice, Column_Slice, new_result, hs], by rw [hs]; exact hslen,
    by rw [hs], by rw [hs], hstypes, ?_⟩
  intro k hk0 hk1 a ha
  by_cases ht : column.type_id = a.2
  · obtain ⟨v, hv, hres⟩ := typed_accessor_value s k (by rw [hs]) hstypes
      hk0 (by rw [hs]; simp only; rw [hslen]; exact hk1) a ha (by rw [hsid]; exact ht)
    obtain ⟨v2, hv2, hres2⟩ := typed_accessor_value column (offset + k) hlen htypes
      (by omega) (by omega) a ha ht
    rw [hres, hres2]
    rw [hs] at hv
    simp only at hv
    rw [hcells, List.getElem?_take_of_lt (by omega), List.getElem?_drop,
      show offset.toNat + k.toNat = (offset + k).toNat by omega, hv2] at hv
    simp only [Option.some.injEq] at hv
    rw [hv]
  · rw [typed_accessor_result a ha (some s) k "wrong type"
        (by rw [(find_chunk_error_cases s k a.2).1 (by rw [hsid]; exact ht)]),
      typed_accessor_result a ha (some column) (offset + k) "wrong type"
        (by rw [(find_chunk_error_cases column (offset + k) a.2).1 ht])]

theorem column_slice_commutes_with_access_witness :
    chunked_column.length = chunks_length chunked_column.chunks ∧
    (0 : Int) ≤ 2 ∧ (0 : Int) ≤ 4 ∧ (2 : Int) + 4 ≤ chunked_column.length ∧
    ∃ s, column_slice Column_Slice (some chunked_column) 2 4
        = { err := none, val := payload_t.ptr (object_t.column s) } ∧
      s.length = 4 ∧ s.length = chunks_length s.chunks ∧ s.field = chunked_column.field ∧
      (∀ chunk ∈ s.chunks, chunk.type_id = s.type_id) ∧
      ∀ k : Int, 0 ≤ k → k < 4 → ∀ a ∈ typed_accessors,
        a.1 (some s) k = a.1 (some chunked_column) (2 + k) :=
  ⟨by decide, by decide, by decide, by decide,
    column_slice_commutes_with_access chunked_column 2 4 (by decide) chunked_column_types
      (by decide) (by decide) (by decide)⟩

/-- The slice (2, 4) of the ten-row table of `build_table` and of the column in four chunks:
four rows, equal to the rows 2 to 5 of the original. -/
theorem slice_2_4_example :
    table_slice Table_Slice (some build_table) 2 4
      = { err := none,
          val := payload_t.ptr (object_t.table
            { schema := [{ name := "i", dtype := INTEGER64_DTYPE }],
              columns := [{ field := { name := "i", dtype := INTEGER64_DTYPE },
                            chunks := [.int64 [2, 3, 4, 5]], length := 4 }],
              num_rows := 4 }) } ∧
    column_slice Column_Slice (some chunked_column) 2 4
      = { err := none,
          val := payload_t.ptr (object_t.column
            { field := { name := "i", dtype := INTEGER64_DTYPE },
              chunks := [.int64 [2], .int64 [], .int64 [3, 4, 5]], length := 4 }) } ∧
    (List.range 4).map (fun k => column_int_at (Column_Slice chunked_column 2 4) k)
      = (List.range 4).map (fun k => column_int_at (some chunked_column) (2 + k)) := by
  refine ⟨by decide, by decide, by decide⟩

/-! ## Table, builder, result protocol and identifier, the claims -/

/-- C12, as the claim states it, fails: with the `Make` of the Arrow library, which validates
nothing, `table_new` returns a table for a schema of one field and no column, and for a
schema of one bool field `x` with two int64 columns `i` and `j` of 10 and 2 rows. -/
theorem table_new_unvalidated_counterexample :
    table_new Table_Make [{ name := "i", dtype := INTEGER64_DTYPE }] []
      = some { schema := [{ name := "i", dtype := INTEGER64_DTYPE }], columns := [],
               num_rows := 0 } ∧
    table_new Table_Make [{ name := "x", dtype := BOOL_DTYPE }] misfit_columns
      = some { schema := [{ name := "x", dtype := BOOL_DTYPE }], columns := misfit_columns,
               num_rows := 10 } ∧
    misfit_columns.length ≠ [({ name := "x", dtype := BOOL_DTYPE } : Field)].length ∧
    misfit_columns.map Column.field ≠ [{ name := "x", dtype := BOOL_DTYPE }] ∧
    misfit_columns.map Column.length = [10, 2] := by
  refine ⟨by decide, by decide, by decide, by decide, by decide⟩

/-- C12, amended: `table_new` validates nothing itself.  It returns null exactly when the
library's `Table::Make` returns a null pointer, and otherwise the table the library made, as
it is; with the `Make` of the Arrow library, which never returns a null pointer, it returns a
table for every schema and every list of columns. -/
theorem table_new_null_iff_library_null (Make : List Field → List Column → Option Table)
    (sp : List Field) (cp : List Column) :
    (table_new Make sp cp = none ↔ Make sp cp = none) ∧
    (∀ t, Make sp cp = some t → table_new Make sp cp = some t) ∧
    (∃ t, table_new Table_Make sp cp = some t ∧ t.schema = sp ∧ t.columns = cp) := by
  refine ⟨?_, ?_, ?_⟩
  · cases h : Make sp cp <;> simp [table_new, h]
  · intro t h; simp [table_new, h]
  · exact ⟨_, rfl, rfl, rfl⟩

/-- The results of `table_col_by_index` on the table of `build_table`: the range error
points at a destroyed string, the null check at a literal. -/
theorem table_col_by_index_example :
    table_col_by_index (some build_table) 1
      = { err := some cstr_t.dangling, val := payload_t.null } ∧
    table_col_by_index (some build_table) (-1)
      = { err := some cstr_t.dangling, val := payload_t.null } ∧
    table_col_by_index none 0 = { err := some "null pointer", val := payload_t.null } := by
  refine ⟨by decide, by decide, by decide⟩

/-- The table of type ids of `array_builder_new`: a builder and no error for each of the five
type ids (bool, float64, int64, utf8, timestamp); the five ids are pairwise distinct and each
gives a builder of another element type, the one with that id; for every other integer no
builder, and an error pointer that points at a destroyed string. -/
theorem array_builder_new_codes (dtype : Int) :
    dtype_codes.Nodup ∧
    (dtype_codes.map array_builder_new).Nodup ∧
    (dtype ∈ dtype_codes →
      ∃ values, array_builder_new dtype
          = { err := none, val := payload_t.ptr (object_t.builder values) } ∧
        values.type_id = dtype ∧ values.length = 0) ∧
    (dtype ∉ dtype_codes →
      array_builder_new dtype
        = { err := some cstr_t.dangling, val := payload_t.null }) := by
  refine ⟨by decide, by decide, ?_, ?_⟩
  · intro h
    simp only [dtype_codes, List.mem_cons, List.mem_singleton, List.not_mem_nil,
      or_false] at h
    rcases h with rfl | rfl | rfl | rfl | rfl
    · exact ⟨ArrayData.boolean [], by decide, rfl, rfl⟩
    · exact ⟨ArrayData.float64 [], by decide, rfl, rfl⟩
    · exact ⟨ArrayData.int64 [], by decide, rfl, rfl⟩
    · exact ⟨ArrayData.utf8 [], by decide, rfl, rfl⟩
    · exact ⟨ArrayData.timestamp [], by decide, rfl, rfl⟩
  · intro h
    simp only [dtype_codes, List.mem_cons, List.mem_singleton, List.not_mem_nil, or_false,
      not_or] at h
    obtain ⟨h1, h2, h3, h4, h5⟩ := h
    simp [array_builder_new, new_result, h1, h2, h3, h4, h5]

/-- C14: `array_builder_new` returns a builder and no error for each of the five type ids,
which are pairwise distinct and give builders of five element types; for the code 7, which
is none of them, it returns no builder, and an error that does not say "unknown dtype": its
`err` is not null but points at the destroyed string that held "unknown dtype: 7", not at
that text. -/
theorem array_builder_new_unknown_dtype_text_lost :
    dtype_codes = [1, 12, 9, 13, 18] ∧
    dtype_codes.map array_builder_new
      = [{ err := none, val := payload_t.ptr (object_t.builder (ArrayData.boolean [])) },
         { err := none, val := payload_t.ptr (object_t.builder (ArrayData.float64 [])) },
         { err := none, val := payload_t.ptr (object_t.builder (ArrayData.int64 [])) },
         { err := none, val := payload_t.ptr (object_t.builder (ArrayData.utf8 [])) },
         { err := none, val := payload_t.ptr (object_t.builder (ArrayData.timestamp [])) }] ∧
    (7 : Int) ∉ dtype_codes ∧
    array_builder_new 7 = { err := some cstr_t.dangling, val := payload_t.null } ∧
    (array_builder_new 7).err ≠ some "unknown dtype: 7" := by
  refine ⟨by decide, by decide, by decide, by decide, by decide⟩

theorem plasma_read_error_xor_payload (store : plasma_t σ) (ipc : ipc_t W B)
    (cp : Option σ) (oid : Option String) (timeout_ms : Int) :
    (plasma_read store ipc cp oid timeout_ms).res.error_xor_payload := by
  intro he
  cases cp with
  | none => simp [plasma_read]
  | some client =>
    cases oid with
    | none => simp [plasma_read]
    | some id =>
      revert he
      simp only [plasma_read]
      rcases store.Get client id timeout_ms with ⟨st, buffers, c1⟩
      cases st with
      | error msg => intro _; rfl
      | OK =>
        simp only
        split
        · intro _; rfl
        · cases ipc.ReaderOpen (buffers.headD []) with
          | error msg => intro _; rfl
          | ok reads =>
            simp only
            cases read_batches reads with
            | error msg => intro _; rfl
            | ok batches =>
              simp only
              cases ipc.FromRecordBatches batches with
              | error msg => intro _; rfl
              | ok table => intro he; exact absurd rfl he

theorem plasma_write_error_xor_payload (store : plasma_t σ) (ipc : ipc_t W B)
    (cp : Option σ) (tp : Option Table) (oid : Option String) :
    (plasma_write store ipc cp tp oid).res.error_xor_payload := by
  intro he
  cases cp with
  | none => simp [plasma_write]
  | some client =>
    cases tp with
    | none => simp [plasma_write]
    | some table =>
      cases oid with
      | none => simp [plasma_write]
      | some id =>
        rcases plasma_write_cases store ipc client table id with
          ⟨-, hr, -⟩ | ⟨size, msg, c1, -, -, hr, -⟩ | ⟨size, c1, msg, -, -, -, hr, -⟩ |
          ⟨size, c1, w, bytes, msg, w1, data, tr, -, -, -, -, hr, -⟩ |
          ⟨size, c1, w, bytes, w1, data, tr, msg, c2, -, -, -, -, -, hr, -⟩ |
          ⟨size, c1, w, bytes, w1, data, tr, c2, -, -, -, -, -, hr, -, -⟩
        · rw [hr]
        · rw [hr]
        · rw [hr]
        · rw [hr]
        · rw [hr]
        · rw [hr] at he; exact absurd rfl he

/-- C15: the result protocol.  For every input, the result of `array_builder_new`, of a typed
column accessor, of `column_slice`, of `table_slice`, of `table_col_by_name`, of
`table_col_by_index`, of `plasma_write` and of `plasma_read` never carries both an error and
a payload: when `err` is not null, the union is null. -/
theorem result_protocol (store : plasma_t σ) (ipc : ipc_t W B)
    (SliceC : Column → Int → Int → Option Column) (SliceT : Table → Int → Int → Option Table)
    (GetColumnByName : Table → String → Option Column) :
    (∀ dtype, (array_builder_new dtype).error_xor_payload) ∧
    (∀ a ∈ typed_accessors, ∀ vp i, (a.1 vp i).error_xor_payload) ∧
    (∀ vp offset length, (column_slice SliceC vp offset length).error_xor_payload) ∧
    (∀ vp offset length, (table_slice SliceT vp offset length).error_xor_payload) ∧
    (∀ vp name, (table_col_by_name GetColumnByName vp name).error_xor_payload) ∧
    (∀ vp i, (table_col_by_index vp i).error_xor_payload) ∧
    (∀ cp tp oid, (plasma_write store ipc cp tp oid).res.error_xor_payload) ∧
    (∀ cp oid timeout_ms, (plasma_read store ipc cp oid timeout_ms).res.error_xor_payload) := by
  refine ⟨?_, ?_, ?_, ?_, ?_, ?_, plasma_write_error_xor_payload store ipc,
    plasma_read_error_xor_payload store ipc⟩
  · intro dtype he
    revert he
    simp only [array_builder_new, new_result]
    repeat' split
    all_goals first
      | (intro he; exact absurd rfl he)
      | (intro _; rfl)
  · intro a ha vp i he
    obtain ⟨h1, h2⟩ := typed_accessor_err a ha vp i
    exact h2 (by rw [← h1]; exact he)
  · intro vp offset length he
    revert he
    cases vp with
    | none => intro _; rfl
    | some column =>
      simp only [column_slice, new_result]
      cases SliceC column offset length with
      | none => intro _; rfl
      | some s => intro he; exact absurd rfl he
  · intro vp offset length he
    revert he
    cases vp with
    | none => intro _; rfl
    | some table =>
      simp only [table_slice, new_result]
      cases SliceT table offset length with
      | none => intro _; rfl
      | some s => intro he; exact absurd rfl he
  · intro vp name he
    revert he
    cases vp with
    | none => intro _; rfl
    | some table =>
      simp only [table_col_by_name]
      cases GetColumnByName table name with
      | none => intro _; rfl
      | some s => intro he; exact absurd rfl he
  · intro vp i he
    revert he
    cases vp with
    | none => intro _; rfl
    | some table =>
      simp only [table_col_by_index]
      split
      · intro _; rfl
      · cases table.columns[i.toNat]? with
        | none => intro _; rfl
        | some c => intro he; exact absurd rfl he

/-- C16, as the claim states it, fails: the identifier that `main` builds from the key `obj1`
starts with the byte 48, the character `0`, and not with the zero byte. -/
theorem main_oid_padding_counterexample :
    obj1_key.length ≤ 20 ∧
    misc_main_oid obj1_key
      = some [48, 48, 48, 48, 48, 48, 48, 48, 48, 48, 48, 48, 48, 48, 48, 48,
              111, 98, 106, 49] ∧
    ¬ (∀ id, misc_main_oid obj1_key = some id → ∀ j, j < 20 - obj1_key.length →
        id[j]? = some 0) := by
  refine ⟨by decide, by decide, ?_⟩
  intro h
  have := h [48, 48, 48, 48, 48, 48, 48, 48, 48, 48, 48, 48, 48, 48, 48, 48, 111, 98, 106, 49]
    (by decide) 0 (by decide)
  revert this
  decide

/-- C16, amended: for every key of at most 20 bytes, the identifier `main` builds from it is
exactly 20 bytes long, ends with the bytes of the key unchanged, and every byte before the
key is the character `0` (the byte 48); a key of exactly 20 bytes is used unchanged. -/
theorem main_oid_padded_with_char_zero (key : List Nat) (hkey : key.length ≤ 20) :
    ∃ id, misc_main_oid key = some id ∧ id.length = 20 ∧
      id.drop (20 - key.length) = key ∧
      (∀ j, j < 20 - key.length → id[j]? = some 48) ∧
      (key.length = 20 → id = key) := by
  refine ⟨List.replicate (20 - key.length) 48 ++ key, ?_, ?_, ?_, ?_, ?_⟩
  · unfold misc_main_oid
    simp only [hkey, if_true, List.take_replicate, List.drop_replicate,
      Nat.sub_add_cancel hkey, Nat.sub_self, List.replicate_zero, List.append_nil]
    rw [Nat.min_eq_left (Nat.sub_le _ _)]
  · simp; omega
  · rw [List.drop_append_of_le_length (by simp)]
    simp
  · intro j hj
    rw [List.getElem?_append_left (by simpa using hj)]
    simp [List.getElem?_replicate, hj]
  · intro h
    simp [h]

theorem main_oid_padded_with_char_zero_witness :
    obj1_key.length ≤ 20 ∧
    ∃ id, misc_main_oid obj1_key = some id ∧ id.length = 20 ∧
      id.drop (20 - obj1_key.length) = obj1_key ∧
      (∀ j, j < 20 - obj1_key.length → id[j]? = some 48) ∧
      (obj1_key.length = 20 → id = obj1_key) :=
  ⟨by decide, main_oid_padded_with_char_zero obj1_key (by decide)⟩

/-! ## Write and read back -/

/-- The client state a successful `plasma_write` leaves: the state after `Create` and
`Seal`. -/
theorem plasma_write_success_client (store : plasma_t σ) (ipc : ipc_t W B) (client : σ)
    (table : Table) (id : String)
    (hok : (plasma_write store ipc (some client) (some table) (some id)).res.err = none) :
    ∃ size c1 c2, (table_size ipc table).1 = { err := none, val := payload_t.i size } ∧
      store.Create client id size = (Status.OK, c1) ∧
      store.Seal c1 id = (Status.OK, c2) ∧
      (plasma_write store ipc (some client) (some table) (some id)).client = some c2 := by
  rcases plasma_write_cases store ipc client table id with
    ⟨-, hr, -⟩ | ⟨size, msg, c1, -, -, hr, -⟩ | ⟨size, c1, msg, -, -, -, hr, -⟩ |
    ⟨size, c1, w, bytes, msg, w1, data, tr, -, -, -, -, hr, -⟩ |
    ⟨size, c1, w, bytes, w1, data, tr, msg, c2, -, -, -, -, -, hr, -⟩ |
    ⟨size, c1, w, bytes, w1, data, tr, c2, hp, hc, ho, hw, hs, -, -, -⟩
  · rw [hr] at hok; simp at hok
  · rw [hr] at hok; simp at hok
  · rw [hr] at hok; simp at hok
  · rw [hr] at hok; simp at hok
  · rw [hr] at hok; simp at hok
  · exact ⟨size, c1, c2, hp, hc, hs, by simp [plasma_write, hp, result_i, hc, ho, hw, hs]⟩

/-- What `plasma_read` is given after a successful `plasma_write` into a fresh store whose
memory holds the byte `fill`: the bytes written, followed by as many bytes `fill` as the
`Close` of the probe had counted.  The end-of-stream bytes are not in the buffer. -/
theorem read_gets_unwritten_tail (fill : Nat) (ipc : ipc_t W B) (table : Table) (id : String)
    (timeout_ms : Int)
    (hsink : ipc.Open sink_t.mock table.schema = ipc.Open sink_t.buffer table.schema)
    (hok : (plasma_write (memory_store fill) ipc (some []) (some table)
      (some id)).res.err = none) :
    ∃ objects w1 w2 last,
      memory_after_write (plasma_write (memory_store fill) ipc (some []) (some table)
        (some id)) id = some objects ∧
      ipc.Close w1 = Except.ok (w2, last) ∧
      (memory_store fill).Get objects id timeout_ms
        = (Status.OK,
            [(plasma_write (memory_store fill) ipc (some []) (some table) (some id)).written
              ++ List.replicate last.length fill],
            objects) := by
  obtain ⟨size, w1, w2, last, hp, hcl, hsz⟩ :=
    size_probe_exceeds_written (memory_store fill) ipc [] table id hsink hok
  obtain ⟨size', c1, c2, hp', hc, hs, hcli⟩ :=
    plasma_write_success_client (memory_store fill) ipc [] table id hok
  rw [hp] at hp'
  simp only [result_t.mk.injEq, payload_t.i.injEq, true_and] at hp'
  subst hp'
  have hc1 : c1 = [{ id := id, data := List.replicate size.toNat fill, sealed := false }] := by
    simp [memory_store] at hc
    exact hc.symm
  subst hc1
  have hc2 : c2 = [{ id := id, data := List.replicate size.toNat fill, sealed := true }] := by
    simp [memory_store] at hs
    exact hs.symm
  subst hc2
  have hafter : memory_after_write (plasma_write (memory_store fill) ipc (some [])
      (some table) (some id)) id
      = some [{ id := id,
                data := (plasma_write (memory_store fill) ipc (some []) (some table)
                  (some id)).written ++ List.replicate last.length fill,
                sealed := true }] := by
    rw [memory_after_write, hcli]
    generalize (plasma_write (memory_store fill) ipc (some []) (some table)
      (some id)).written = written at hsz
    simp only [Option.map_some', memory_write, List.map_cons, List.map_nil, if_true,
      List.drop_replicate]
    rw [show size.toNat - written.length = last.length by omega]
  refine ⟨_, w1, w2, last, hafter, hcl, ?_⟩
  generalize (plasma_write (memory_store fill) ipc (some []) (some table)
    (some id)).written = written
  simp [memory_store]

theorem read_gets_unwritten_tail_witness :
    unit_codec.Open sink_t.mock build_table.schema
      = unit_codec.Open sink_t.buffer build_table.schema ∧
    (plasma_write (memory_store 255) unit_codec (some []) (some build_table)
      (some "0000000000000000obj1")).res.err = none ∧
    ∃ objects w1 w2 last,
      memory_after_write (plasma_write (memory_store 255) unit_codec (some [])
        (some build_table) (some "0000000000000000obj1")) "0000000000000000obj1"
        = some objects ∧
      unit_codec.Close w1 = Except.ok (w2, last) ∧
      (memory_store 255).Get objects "0000000000000000obj1" 0
        = (Status.OK,
            [(plasma_write (memory_store 255) unit_codec (some []) (some build_table)
                (some "0000000000000000obj1")).written ++ List.replicate last.length 255],
            objects) :=
  ⟨rfl, by decide, read_gets_unwritten_tail 255 unit_codec build_table
    "0000000000000000obj1" 0 rfl (by decide)⟩

/-- C17, the code at a failing input: the table of `build_table` (one int64 column `i`
holding 0..9) is written with `plasma_write` into a fresh store whose memory holds the byte
255, through the codec `unit_codec`.
`plasma_write` succeeds and returns 16, the size of the buffer; it has written 15 bytes, and
the last byte of the buffer, where `Close` would have put the end of the stream, still holds
255.  `plasma_read` of the same identifier from that store fails and returns no table: its
reader meets the byte 255 where the end of the stream should be (its status says "invalid
message"), and the result is an error with a null `ptr`.  From memory that holds the byte 0
the same calls read the table back, with 10 rows and the value 7 at index 7; and so does the
buffer that `main` of `_misc/plasma.cc`, which closes the writer, fills. -/
theorem round_trip_reads_unwritten_tail :
    (plasma_write (memory_store 255) unit_codec (some []) (some build_table)
      (some "0000000000000000obj1")).res = { err := none, val := payload_t.i 16 } ∧
    (plasma_write (memory_store 255) unit_codec (some []) (some build_table)
      (some "0000000000000000obj1")).written
      = [1, 1, 105, 1, 10, 0, 2, 4, 6, 8, 10, 12, 14, 16, 18] ∧
    memory_after_write (plasma_write (memory_store 255) unit_codec (some [])
      (some build_table) (some "0000000000000000obj1")) "0000000000000000obj1"
      = some [{ id := "0000000000000000obj1",
                data := [1, 1, 105, 1, 10, 0, 2, 4, 6, 8, 10, 12, 14, 16, 18, 255],
                sealed := true }] ∧
    (∃ reads,
      unit_codec.ReaderOpen [1, 1, 105, 1, 10, 0, 2, 4, 6, 8, 10, 12, 14, 16, 18, 255]
        = Except.ok reads ∧
      read_batches reads = Except.error "invalid message") ∧
    (plasma_read (memory_store 255) unit_codec
      (memory_after_write (plasma_write (memory_store 255) unit_codec (some [])
        (some build_table) (some "0000000000000000obj1")) "0000000000000000obj1")
      (some "0000000000000000obj1") 0).res
      = { err := some cstr_t.dangling, val := payload_t.null } ∧
    (plasma_read (memory_store 0) unit_codec
      (memory_after_write (plasma_write (memory_store 0) unit_codec (some [])
        (some build_table) (some "0000000000000000obj1")) "0000000000000000obj1")
      (some "0000000000000000obj1") 0).res
      = { err := none, val := payload_t.ptr (object_t.table build_table) } ∧
    build_table.num_rows = 10 ∧
    column_int_at build_table.columns.head? 7 = { err := none, val := payload_t.i 7 } ∧
    (misc_main_write (memory_store 255) unit_codec [] build_table
      "0000000000000000obj1").2.1
      = [1, 1, 105, 1, 10, 0, 2, 4, 6, 8, 10, 12, 14, 16, 18, 0] ∧
    (plasma_read (memory_store 255) unit_codec
      (some [{ id := "0000000000000000obj1",
               data := (misc_main_write (memory_store 255) unit_codec [] build_table
                 "0000000000000000obj1").2.1,
               sealed := true }])
      (some "0000000000000000obj1") 0).res
      = { err := none, val := payload_t.ptr (object_t.table build_table) } := by
  refine ⟨by decide, by decide, by decide, ⟨_, rfl, rfl⟩, by decide, by decide, by decide,
    by decide, by decide, by decide⟩

end

end Frames
